import Mathlib

/-!
Verification development for the tajweed rule engine (src/tajweed.py).

The engine applies an ordered list of orthographic sandhi rules over a list of
(text, index) tokens.  Rule patterns in the source are Python regular
expressions drawn from a small fixed construct set (literals, character
classes, optional groups, capture groups, alternation, lookahead, negative
lookahead, fixed-width lookbehind, anchors; no repetition operators), so
matching is embedded here as a total, structurally recursive backtracking
matcher over a pattern AST.  Token texts contain no newline characters, so
the simplified `^`/`$` semantics (absolute start / absolute end) coincide
with Python's.
-/

namespace Tajweed

/-- A Quranic index: (sura, verse, word). -/
abbrev QIndex := Nat × Nat × Nat

/-- One corpus token: orthographic text plus its (sura, verse, word) index.
    Mirrors the `[tok, ind]` pairs of `qtokens` in tajweed.py. -/
structure Token where
  text : String
  ind : QIndex
  deriving DecidableEq, Repr

/-- One record of the morphological table `qmorf` (see `_qmorf_process`):
    per index, the token, POS meta-class list, lemmas, roots and
    derivational tags. -/
structure MorphRec where
  tok : String
  pos : List String
  lemas : List String
  roots : List String
  derv : List String
  deriving Repr

/-- The morphological index, an external read-only collaborator.  The Python
    dict is keyed by the string "s,v,w"; that key is in bijection with the
    index triple, so we key by the triple directly.  `none` models an index
    absent from the table (a `KeyError` in Python). -/
abbrev QMorf := QIndex → Option MorphRec

/-- One trace entry: `(rule id, (s,v,w), match count, is_boundary)`.  The
    Python `counts` dict groups entries by rule id; we keep a flat log in
    append order (entries of a rule id are recovered by filtering). -/
structure CountEntry where
  rule : String
  ind : QIndex
  cnt : Nat
  bound : Bool
  deriving DecidableEq, Repr

/-- The engine state: the live token array plus the optional counts sink
    (`counts=None` in Python is `none` here). -/
structure EngineState where
  tokens : List Token
  counts : Option (List CountEntry)
  deriving DecidableEq, Repr

instance {ε α : Type} [DecidableEq ε] [DecidableEq α] : DecidableEq (Except ε α) := fun x y =>
  match x, y with
  | .ok a, .ok b =>
    if h : a = b then .isTrue (by rw [h]) else .isFalse (fun hc => h (Except.ok.inj hc))
  | .error a, .error b =>
    if h : a = b then .isTrue (by rw [h]) else .isFalse (fun hc => h (Except.error.inj hc))
  | .ok _, .error _ => .isFalse (fun hc => Except.noConfusion hc)
  | .error _, .ok _ => .isFalse (fun hc => Except.noConfusion hc)

/-! ## Pattern AST and matcher

A shallow embedding of the regex subset used by the rule tables. -/

/-- Regex pattern AST.  `lbehind neg alts` is a fixed-width lookbehind
    `(?<=a|b|..)` / `(?<!a|b|..)` whose alternatives are literal strings. -/
inductive Pat where
  | eps : Pat
  | ch : Char → Pat
  | any : Pat
  | cls : Bool → List Char → Pat
  | seq : Pat → Pat → Pat
  | alt : Pat → Pat → Pat
  | opt : Pat → Pat
  | grp : Nat → Pat → Pat
  | look : Pat → Pat
  | nlook : Pat → Pat
  | lbehind : Bool → List (List Char) → Pat
  | bos : Pat
  | eos : Pat
  deriving DecidableEq, Repr

/-- Captured groups: group number to captured characters. -/
abbrev Groups := List (Nat × List Char)

/-- Replacement template item: literal text or a backreference `\n`. -/
inductive Tpl where
  | lit : String → Tpl
  | ref : Nat → Tpl
  deriving DecidableEq, Repr

/-- A replacement template, e.g. `\1لۡ\2` is `[.ref 1, .lit "لۡ", .ref 2]`. -/
abbrev Tmpl := List Tpl

/-- All ways `p` can match a prefix of `s`, in backtracking preference order
    (greedy `?`, leftmost alternative first), as (consumed length, groups).
    `pre` is the reversed list of characters before the current position
    (used by lookbehind and `^`). -/
def pmatch : Pat → List Char → List Char → Groups → List (Nat × Groups)
  | .eps, _, _, g => [(0, g)]
  | .ch c, _, s, g =>
    match s with
    | [] => []
    | c' :: _ => if c' = c then [(1, g)] else []
  | .any, _, s, g =>
    match s with
    | [] => []
    | c' :: _ => if c' = '\n' then [] else [(1, g)]
  | .cls neg cs, _, s, g =>
    match s with
    | [] => []
    | c' :: _ => if (cs.contains c').xor neg then [(1, g)] else []
  | .seq p q, pre, s, g =>
    (pmatch p pre s g).flatMap (fun m =>
      (pmatch q ((s.take m.1).reverse ++ pre) (s.drop m.1) m.2).map
        (fun m2 => (m.1 + m2.1, m2.2)))
  | .alt p q, pre, s, g => pmatch p pre s g ++ pmatch q pre s g
  | .opt p, pre, s, g => pmatch p pre s g ++ [(0, g)]
  | .grp n p, pre, s, g =>
    (pmatch p pre s g).map (fun m => (m.1, (n, s.take m.1) :: m.2))
  | .look p, pre, s, g =>
    match (pmatch p pre s g).head? with
    | some m => [(0, m.2)]
    | none => []
  | .nlook p, pre, s, g => if (pmatch p pre s g).isEmpty then [(0, g)] else []
  | .lbehind neg alts, pre, _, g =>
    if (alts.any (fun a => pre.take a.length = a.reverse)).xor neg then [(0, g)] else []
  | .bos, pre, _, g => if pre.isEmpty then [(0, g)] else []
  | .eos, _, s, g => if s.isEmpty then [(0, g)] else []

/-- Expand a replacement template with the captured groups.  A
    backreference to a group that did not participate expands to the empty
    string (Python ≥ 3.5 `re.sub` semantics). -/
def expandT (t : Tmpl) (g : Groups) : List Char :=
  t.foldr (fun item acc =>
    (match item with
     | .lit s => s.toList
     | .ref n =>
       match g.find? (fun e => e.1 = n) with
       | some e => e.2
       | none => []) ++ acc) []

/-- `re.subn`: scan left to right, replace each leftmost non-overlapping
    match (first result in backtracking order), and count replacements.
    An empty match is replaced and scanning resumes after the next
    character (Python ≥ 3.7 semantics); no pattern in the rule tables
    matches empty, so that branch is dead there.  The scan consumes at
    least one character per step, so it is structurally recursive on a
    fuel that is always called with `s.length + 1` (the fuel-exhausted
    branch is unreachable then). -/
def subnGo (p : Pat) (t : Tmpl) : Nat → List Char → List Char → List Char × Nat
  | 0, _, s => (s, 0)
  | fuel + 1, pre, s =>
    match s with
    | [] =>
      match (pmatch p pre [] []).head? with
      | some m => (expandT t m.2, 1)
      | none => ([], 0)
    | c :: s' =>
      match (pmatch p pre (c :: s') []).head? with
      | some m =>
        if m.1 = 0 then
          let r := subnGo p t fuel (c :: pre) s'
          (expandT t m.2 ++ c :: r.1, r.2 + 1)
        else
          let r := subnGo p t fuel (((c :: s').take m.1).reverse ++ pre) ((c :: s').drop m.1)
          (expandT t m.2 ++ r.1, r.2 + 1)
      | none =>
        let r := subnGo p t fuel (c :: pre) s'
        (c :: r.1, r.2)

/-- `re.search`: does `p` match starting at some position of the string? -/
def searchGo (p : Pat) : List Char → List Char → Bool
  | pre, [] => !(pmatch p pre [] []).isEmpty
  | pre, c :: s' => !(pmatch p pre (c :: s') []).isEmpty || searchGo p (c :: pre) s'

/-- `re.search(p, s)` as a Bool. -/
def searchP (p : Pat) (s : String) : Bool := searchGo p [] s.toList

/-- `re.subn(p, t, s)`. -/
def subnP (p : Pat) (t : Tmpl) (s : String) : String × Nat :=
  let r := subnGo p t (s.toList.length + 1) [] s.toList
  (String.mk r.1, r.2)

/-- `re.search(f'{pre}$', s)` (pattern anchored at the end). -/
def searchEnd (p : Pat) (s : String) : Bool := searchP (.seq p .eos) s

/-- `re.search(f'^{post}', s)` (pattern anchored at the start). -/
def searchStart (p : Pat) (s : String) : Bool := searchP (.seq .bos p) s

/-- `re.subn(f'{pre}$', t, s)`. -/
def subnEnd (p : Pat) (t : Tmpl) (s : String) : String × Nat := subnP (.seq p .eos) t s

/-- `re.sub(f'^{post}', t, s)`. -/
def subStart (p : Pat) (t : Tmpl) (s : String) : String := (subnP (.seq .bos p) t s).1

/-- Sequence of patterns. -/
def pseq (l : List Pat) : Pat := l.foldr .seq .eps

/-- A literal string pattern. -/
def pstr (s : String) : Pat := pseq (s.toList.map Pat.ch)

/-- A character class `[..]` from the string of its members. -/
def pcl (s : String) : Pat := .cls false s.toList

/-- A negated character class `[^..]`. -/
def pncl (s : String) : Pat := .cls true s.toList

/-- Alternation of a list of patterns (leftmost preferred). -/
def palt : List Pat → Pat
  | [] => .eps
  | [p] => p
  | p :: rest => .alt p (palt rest)

/-! ## Rules

A rule of the tables is the 8-tuple
`(ID_RULE, ((TOK_PRE, TOK_POST), (REPL_PRE, REPL_POST)), (TOK_INSIDE, REPL_INSIDE),
 FILTER_POS, EXCLUDE_INDEXES, EXCLUDE_LEMAS, FORCE_INDEXES, RESTRICT_INDEXES)`.
In every rule of both tables, `TOK_PRE`, `TOK_POST` and `REPL_PRE` are either
all present or all absent, so the boundary part is bundled. -/

/-- The boundary (between-words) part of a rule: `TOK_PRE`, `TOK_POST`,
    `REPL_PRE` and the optional `REPL_POST`. -/
structure BoundaryRule where
  pre : Pat
  post : Pat
  repl_pre : Tmpl
  repl_post : Option Tmpl
  deriving DecidableEq, Repr

/-- One rule of `REMOVE_SANDHI_RULES` / `RESTORE_SANDHI_RULES`.
    `except_lemas` (`EXCLUDE_LEMAS`) is bound but never read by
    `apply_rules`; it is `{}` in every rule. -/
structure Rule where
  id : String
  boundary : Option BoundaryRule
  intra : Option (Pat × Tmpl)
  filter_pos : Option String
  except_ind : List QIndex
  except_lemas : List String
  force_ind : List QIndex
  restrict_ind : List QIndex
  deriving DecidableEq, Repr

/-! ## Character inventories and index sets (from tajweed.py) -/

/-- `HAMZA` from tajweed.py. -/
def HAMZA : String := "ءأإؤئ"

/-- `ITHHAR` from tajweed.py. -/
def ITHHAR : String := "ءأإؤئحخعغه"

/-- `IDGHAM` from tajweed.py. -/
def IDGHAM : String := "نمویلر"

/-- `IKHFA2` from tajweed.py. -/
def IKHFA2 : String := "تثجدذزسشصضطظفقك"

/-- `CONS` from tajweed.py. -/
def CONS : String := "بءأإؤئحخعغهنمویلرتثجدذزسشصضطظفقك"

/-- `MADD_HMZ_EXCEPTION` from tajweed.py (a Python set; modelled as a list, order as written). -/
def MADD_HMZ_EXCEPTION : List QIndex :=
  [(2,72,4)]

/-- `EXCLUDE_INDEXES_MIN_Y_2` from tajweed.py (a Python set; modelled as a list, order as written). -/
def EXCLUDE_INDEXES_MIN_Y_2 : List QIndex :=
  [(5,81,5), (7,158,23), (9,113,3), (9,117,5), (33,30,2), (33,32,2), (33,38,4), (33,50,33), (33,53,7), (33,56,6), (49,2,9)]

/-- `EXCLUDE_INDEXES_SIL_1` from tajweed.py (a Python set; modelled as a list, order as written). -/
def EXCLUDE_INDEXES_SIL_1 : List QIndex :=
  [(2,160,9), (9,94,13), (15,49,5), (15,89,3), (20,13,1), (20,14,2), (27,9,3), (28,30,16)]

/-- `EXCLUDE_INDEXES_SIL_5` from tajweed.py (a Python set; modelled as a list, order as written). -/
def EXCLUDE_INDEXES_SIL_5 : List QIndex :=
  [(7,189,22)]

/-- `MITHL_yy_EXCLUDE_INDEXES` from tajweed.py (a Python set; modelled as a list, order as written). -/
def MITHL_yy_EXCLUDE_INDEXES : List QIndex :=
  [(51,47,3)]

/-- `RESTRICT_INDEXES_MIN_Y_4` from tajweed.py (a Python set; modelled as a list, order as written). -/
def RESTRICT_INDEXES_MIN_Y_4 : List QIndex :=
  [(25,69,7), (2,258,22), (15,23,3), (50,43,3), (30,24,11), (7,103,9), (10,75,9), (11,97,3), (23,46,3), (43,46,7), (28,32,21), (7,127,17), (28,4,14), (33,53,32), (33,53,36), (12,101,15)]

/-- `RESTRICT_INDEXES_MIN_5` from tajweed.py (a Python set; modelled as a list, order as written). -/
def RESTRICT_INDEXES_MIN_5 : List QIndex :=
  [(61,14,12), (62,2,5), (5,111,4), (3,20,13), (3,75,30), (3,79,21)]

/-- `RESTRICT_INDEXES_SIL_6` from tajweed.py (a Python set; modelled as a list, order as written). -/
def RESTRICT_INDEXES_SIL_6 : List QIndex :=
  [(5,18,5), (20,18,4), (26,6,4), (6,5,8), (60,4,14), (20,119,3), (12,85,3), (59,17,9), (5,29,12), (5,33,2), (40,50,12), (42,21,3), (6,94,21), (30,13,6), (26,197,7), (14,21,5), (40,47,6), (35,28,13), (23,24,2), (27,29,3), (27,32,3), (27,38,3), (10,34,12), (10,34,6), (10,4,8), (27,64,2), (30,11,2), (30,27,3), (16,48,9), (25,77,3), (75,13,1), (43,18,2), (14,9,3), (38,21,4), (64,5,3), (11,87,16), (24,8,1), (37,106,4), (42,40,1)]

/-- `RESTRICT_INDEXES_SIL_7` from tajweed.py (a Python set; modelled as a list, order as written). -/
def RESTRICT_INDEXES_SIL_7 : List QIndex :=
  [(20,84,3), (3,119,2), (65,6,13), (11,116,7), (13,19,15), (14,52,12), (24,22,3), (27,33,3), (2,269,15), (38,29,8), (39,18,12), (39,9,23), (3,7,45), (46,35,4), (4,8,4), (9,86,11), (17,5,9), (24,22,9), (24,31,51), (28,76,18), (35,1,13), (38,45,6), (48,16,8), (4,83,15), (4,95,7), (73,11,3), (9,113,11), (21,37,5), (7,145,18), (12,111,6), (20,128,16), (20,54,8), (24,44,9), (38,43,9), (39,21,30), (3,13,28), (3,190,10), (40,54,3), (65,4,15), (27,33,5), (33,6,8), (3,18,9), (8,75,10), (4,59,8), (2,179,5), (2,197,28), (59,2,39), (5,100,12), (65,10,8)]

/-- `RESTRICT_INDEXES_MIN_U_7` from tajweed.py (a Python set; modelled as a list, order as written). -/
def RESTRICT_INDEXES_MIN_U_7 : List QIndex :=
  [(4,135,30), (18,16,7)]

/-- `RESTRICT_INDEXES_SIL_8` from tajweed.py (a Python set; modelled as a list, order as written). -/
def RESTRICT_INDEXES_SIL_8 : List QIndex :=
  [(8,65,17), (8,66,12), (18,25,5), (24,2,7), (2,259,19), (2,259,35), (2,261,16), (37,147,3), (8,65,13), (8,66,15)]

/-- `RESTRICT_INDEXES_SIL_9` from tajweed.py (a Python set; modelled as a list, order as written). -/
def RESTRICT_INDEXES_SIL_9 : List QIndex :=
  [(21,34,7), (3,144,10), (6,34,21), (10,75,9), (11,97,3), (23,46,3), (28,32,21), (43,46,7), (7,103,9), (10,83,12)]

/-- `RESTRICT_INDEXES_SIL_A` from tajweed.py (a Python set; modelled as a list, order as written). -/
def RESTRICT_INDEXES_SIL_A : List QIndex :=
  [(43,13,1), (11,68,7), (76,4,4), (76,16,1), (4,135,30), (18,16,7), (2,275,20), (2,275,25), (2,275,3), (2,276,3), (2,278,10), (3,130,6), (4,161,2), (25,38,2), (29,38,2), (53,51,1), (18,14,12), (47,31,7), (47,4,28), (30,39,5), (13,30,10), (38,67,3), (44,33,6), (4,176,8)]

/-- `EXCEPTIONS_SUKUN` from tajweed.py (a Python set; modelled as a list, order as written). -/
def EXCEPTIONS_SUKUN : List QIndex :=
  [(2,1,5), (3,1,5), (29,1,5), (30,1,5), (31,1,5), (32,1,5), (26,1,5), (28,1,5), (27,1,5), (36,1,5), (40,1,5), (41,1,5), (42,1,5), (43,1,5), (44,1,5), (45,1,5), (46,1,5), (40,1,5), (41,1,5), (42,1,5), (43,1,5), (44,1,5), (45,1,5), (46,1,5), (19,1,5), (42,2,1), (10,1,5), (11,1,5), (12,1,5), (14,1,5), (15,1,5), (7,1,5), (13,1,5), (38,1,5), (50,1,5), (68,1,5), (20,1,5), (39,69,7), (89,23,1), (51,47,3)]

/-- `REMOVE_SANDHI_RULES` from tajweed.py, each regex translated to the Pat AST. -/
def REMOVE_SANDHI_RULES : List Rule := [
  Rule.mk "M1" (some (BoundaryRule.mk (.ch 'م') (.ch 'ب') [Tpl.lit "مۡ"] (some [Tpl.lit "ب"]))) none none [] [] [] [],
  Rule.mk "M2" (some (BoundaryRule.mk (.ch 'م') (pstr "مّ") [Tpl.lit "مۡ"] (some [Tpl.lit "م"]))) none none [] [] [] [],
  Rule.mk "N2.1.1.A" (some (BoundaryRule.mk (.ch 'ن') (pseq [(.grp 1 (pcl "نم")), (.ch 'ّ')]) [Tpl.lit "نۡ"] (some [Tpl.ref 1]))) none none [] [] [] [],
  Rule.mk "N2.1.1.B" (some (BoundaryRule.mk (pseq [(.ch 'ࣰ'), (.grp 1 (.opt (pcl "ای")))]) (pseq [(.grp 1 (pcl "نم")), (.ch 'ّ')]) [Tpl.lit "ً", Tpl.ref 1] (some [Tpl.ref 1]))) none none [] [] [] [],
  Rule.mk "N2.1.1.C" (some (BoundaryRule.mk (pseq [(.ch 'ࣱ'), (.opt (.grp 1 (pstr "ا۟")))]) (pseq [(.grp 1 (pcl "نم")), (.ch 'ّ')]) [Tpl.lit "ٌ", Tpl.ref 1] (some [Tpl.ref 1]))) none none [] [] [] [],
  Rule.mk "N2.1.1.D" (some (BoundaryRule.mk (.ch 'ࣲ') (pseq [(.grp 1 (pcl "نم")), (.ch 'ّ')]) [Tpl.lit "ٍ"] (some [Tpl.ref 1]))) none none [] [] [] [],
  Rule.mk "N2.1.2.A" (some (BoundaryRule.mk (.ch 'ن') (pcl "وی") [Tpl.lit "نۡ"] none)) none none [] [] [] [],
  Rule.mk "N2.1.2.B" (some (BoundaryRule.mk (pseq [(.ch 'ࣰ'), (.grp 1 (.opt (pcl "ای")))]) (pcl "وی") [Tpl.lit "ً", Tpl.ref 1] none)) none none [] [] [] [],
  Rule.mk "N2.1.2.C" (some (BoundaryRule.mk (.ch 'ࣱ') (pcl "وی") [Tpl.lit "ٌ"] none)) none none [] [] [] [],
  Rule.mk "N2.1.2.D" (some (BoundaryRule.mk (.ch 'ࣲ') (pcl "وی") [Tpl.lit "ٍ"] none)) none none [] [] [] [],
  Rule.mk "N2.2.A" (some (BoundaryRule.mk (.ch 'ن') (pseq [(.grp 1 (pcl "رل")), (.ch 'ّ')]) [Tpl.lit "نۡ"] (some [Tpl.ref 1]))) none none [] [] [] [],
  Rule.mk "N2.2.B" (some (BoundaryRule.mk (pseq [(.ch 'ࣰ'), (.grp 1 (.opt (pcl "ای")))]) (pseq [(.grp 1 (pcl "رل")), (.ch 'ّ')]) [Tpl.lit "ً", Tpl.ref 1] (some [Tpl.ref 1]))) none none [] [] [] [],
  Rule.mk "N2.2.C" (some (BoundaryRule.mk (.ch 'ࣱ') (pseq [(.grp 1 (pcl "رل")), (.ch 'ّ')]) [Tpl.lit "ٌ"] (some [Tpl.ref 1]))) none none [] [] [] [],
  Rule.mk "N2.2.D" (some (BoundaryRule.mk (.ch 'ࣲ') (pseq [(.grp 1 (pcl "رل")), (.ch 'ّ')]) [Tpl.lit "ٍ"] (some [Tpl.ref 1]))) none none [] [] [] [],
  Rule.mk "N3.A" (some (BoundaryRule.mk (pstr "نۢ") (.ch 'ب') [Tpl.lit "نۡ"] none)) (some ((pseq [(.ch 'ن'), (.ch 'ۢ'), (.look (.ch 'ب'))]), [Tpl.lit "نۡ"])) none [] [] [] [],
  Rule.mk "N3.B" (some (BoundaryRule.mk (pseq [(.ch 'َ'), (.ch 'ۢ'), (.opt (.grp 1 (.ch 'ا')))]) (.ch 'ب') [Tpl.lit "ً", Tpl.ref 1] none)) none none [] [] [] [],
  Rule.mk "N3.C" (some (BoundaryRule.mk (pstr "ُۢ") (.ch 'ب') [Tpl.lit "ٌ"] none)) none none [] [] [] [],
  Rule.mk "N3.D" (some (BoundaryRule.mk (pstr "ِۭ") (.ch 'ب') [Tpl.lit "ٍ"] none)) none none [] [] [] [],
  Rule.mk "N4.A" (some (BoundaryRule.mk (.ch 'ن') (.look (pcl IKHFA2)) [Tpl.lit "نۡ"] none)) (some ((pseq [(.ch 'ن'), (.look (pcl IKHFA2))]), [Tpl.lit "نۡ"])) none [] [] [] [],
  Rule.mk "N4.B" (some (BoundaryRule.mk (pseq [(.ch 'ࣰ'), (.opt (.grp 1 (pcl "ای")))]) (.look (pcl IKHFA2)) [Tpl.lit "ً", Tpl.ref 1] none)) none none [] [] [] [],
  Rule.mk "N4.C" (some (BoundaryRule.mk (.ch 'ࣱ') (.look (pcl IKHFA2)) [Tpl.lit "ٌ"] none)) none none [] [] [] [],
  Rule.mk "N4.D" (some (BoundaryRule.mk (.ch 'ࣲ') (.look (pcl IKHFA2)) [Tpl.lit "ٍ"] none)) none none [] [] [] [],
  Rule.mk "MADD-hmz" (some (BoundaryRule.mk (pseq [(.grp 1 (palt [(pstr "َا"), (pstr "َیٰ"), (pseq [(.ch 'ُ'), (pcl "وۥ")]), (pseq [(.ch 'ِ'), (pcl "یۦ")])])), (.ch 'ٓ')]) (palt [(pcl HAMZA), (pseq [(pcl "ىی"), (.ch 'ٕ')]), (.ch 'ٔ')]) [Tpl.ref 1] none)) (some ((pseq [(.grp 1 (palt [(pseq [(.ch 'َ'), (pcl "اٰ")]), (pseq [(.ch 'ُ'), (pcl "وۥ")]), (pseq [(.ch 'ِ'), (pcl "یۦ")])])), (.ch 'ٓ'), (.look (pseq [(.opt (.ch 'ـ')), (palt [(pcl HAMZA), (pseq [(pcl "ىی"), (.ch 'ٕ')]), (.ch 'ٔ')])]))]), [Tpl.ref 1])) none MADD_HMZ_EXCEPTION [] [] [],
  Rule.mk "MADD-hmz-A-sil" (some (BoundaryRule.mk (pstr "ُوٓا۟") (palt [(pcl HAMZA), (pseq [(pcl "ىی"), (.ch 'ٕ')])]) [Tpl.lit "ُوا۟"] none)) none none [] [] [] [],
  Rule.mk "MADD-hmz-sp-1" none (some ((pstr "تَلۡوُۥٓا۟"), [Tpl.lit "تَلۡوُۥا۟"])) none [] [] [] [],
  Rule.mk "MADD-hmz-sp-2" none (some ((pstr "فَأۡوُۥٓا۟"), [Tpl.lit "فَأۡوُۥا۟"])) none [] [] [] [],
  Rule.mk "MADD-hmz-sp-3" none (some ((pstr "وَجِا۟یٓءَ"), [Tpl.lit "وَجِا۟یءَ"])) none [] [] [] [],
  Rule.mk "MADD-hmz-sp-4" (some (BoundaryRule.mk (pstr "ٱلرِّبَوٰٓا۟") (pcl HAMZA) [Tpl.lit "ٱلرِّبَوٰا۟"] none)) none none [] [] [] [],
  Rule.mk "MADD-lzm" none (some ((pseq [(.grp 1 (palt [(pseq [(.ch 'َ'), (pcl "اٰ")]), (pstr "ُو"), (pstr "ِی")])), (.ch 'ٓ'), (.look (pseq [(pcl CONS), (palt [(pcl "ّْ"), (pcl CONS)])]))]), [Tpl.ref 1])) none [] [] [] [],
  Rule.mk "MADD-shdd-skn" none (some ((pseq [(.ch 'َ'), (.ch 'ا'), (.ch 'ٓ'), (.grp 1 (pcl CONS)), (.look (pcl "ّۡ"))]), [Tpl.lit "َا", Tpl.ref 1])) none [] [] [] [],
  Rule.mk "MADD-sp-1" none (some ((pseq [.bos, (.ch 'ا'), (.ch 'ل'), (.ch 'ٓ'), (.ch 'م'), (.ch 'ٓ'), .eos]), [Tpl.lit "الم"])) none [] [] [] [],
  Rule.mk "MADD-sp-2" none (some ((pseq [.bos, (.ch 'ط'), (.ch 'س'), (.ch 'ٓ'), (.ch 'م'), (.ch 'ٓ'), .eos]), [Tpl.lit "طسم"])) none [] [] [] [],
  Rule.mk "MADD-sp-3" none (some ((pseq [.bos, (.ch 'ط'), (.ch 'س'), (.ch 'ٓ'), .eos]), [Tpl.lit "طس"])) none [] [] [] [],
  Rule.mk "MADD-sp-4" none (some ((pseq [.bos, (.ch 'ی'), (.ch 'س'), (.ch 'ٓ'), .eos]), [Tpl.lit "یس"])) none [] [] [] [],
  Rule.mk "MADD-sp-5" none (some ((pseq [.bos, (.ch 'ح'), (.ch 'م'), (.ch 'ٓ'), .eos]), [Tpl.lit "حم"])) none [] [] [] [],
  Rule.mk "MADD-sp-6" none (some ((pseq [.bos, (.ch 'ك'), (.ch 'ٓ'), (.ch 'ه'), (.ch 'ی'), (.ch 'ع'), (.ch 'ٓ'), (.ch 'ص'), (.ch 'ٓ'), .eos]), [Tpl.lit "كهیعص"])) none [] [] [] [],
  Rule.mk "MADD-sp-7" none (some ((pseq [.bos, (.ch 'ا'), (.ch 'ل'), (.ch 'ٓ'), (.ch 'ر'), .eos]), [Tpl.lit "الر"])) none [] [] [] [],
  Rule.mk "MADD-sp-8" none (some ((pseq [.bos, (.ch 'ا'), (.ch 'ل'), (.ch 'ٓ'), (.ch 'م'), (.ch 'ٓ'), (.ch 'ص'), (.ch 'ٓ'), .eos]), [Tpl.lit "المص"])) none [] [] [] [],
  Rule.mk "MADD-sp-9" none (some ((pseq [.bos, (.ch 'ا'), (.ch 'ل'), (.ch 'ٓ'), (.ch 'م'), (.ch 'ٓ'), (.ch 'ر'), .eos]), [Tpl.lit "المر"])) none [] [] [] [],
  Rule.mk "MADD-sp-A" none (some ((pseq [.bos, (.ch 'ص'), (.ch 'ٓ'), .eos]), [Tpl.lit "ص"])) none [] [] [] [],
  Rule.mk "MADD-sp-B" none (some ((pseq [.bos, (.ch 'ع'), (.ch 'ٓ'), (.ch 'س'), (.ch 'ٓ'), (.ch 'ق'), (.ch 'ٓ'), .eos]), [Tpl.lit "عسق"])) none [] [] [] [],
  Rule.mk "MADD-sp-C" none (some ((pseq [.bos, (.ch 'ق'), (.ch 'ٓ'), .eos]), [Tpl.lit "ق"])) none [] [] [] [],
  Rule.mk "MADD-sp-D" none (some ((pseq [.bos, (.ch 'ن'), (.ch 'ٓ'), .eos]), [Tpl.lit "ن"])) none [] [] [] [],
  Rule.mk "SHMS" none (some ((pseq [(.grp 1 (palt [(.ch 'ٱ'), (pseq [(.ch 'ل'), (.opt (.ch 'ّ')), (.ch 'ِ')]), (pstr "وَلَ"), (pstr "ءَا")])), (.ch 'ل'), (.grp 2 (pcl "طثصرتضذندسظزشل")), (.ch 'ّ')]), [Tpl.ref 1, Tpl.lit "لۡ", Tpl.ref 2])) (some "N") [] [] [] [],
  Rule.mk "MITHL-bb" (some (BoundaryRule.mk (.ch 'ب') (pstr "بّ") [Tpl.lit "بۡ"] (some [Tpl.lit "ب"]))) none none [] [] [] [],
  Rule.mk "MITHL-dd" (some (BoundaryRule.mk (.ch 'د') (pstr "دّ") [Tpl.lit "دۡ"] (some [Tpl.lit "د"]))) (some ((pstr "ددّ"), [Tpl.lit "دۡد"])) none [] [] [] [],
  Rule.mk "MITHL-kk" (some (BoundaryRule.mk (.ch 'ك') (pstr "كّ") [Tpl.lit "كۡ"] (some [Tpl.lit "ك"]))) (some ((pstr "ككّ"), [Tpl.lit "كۡك"])) none [] [] [] [],
  Rule.mk "MITHL-ll" (some (BoundaryRule.mk (.ch 'ل') (pstr "لّ") [Tpl.lit "لۡ"] (some [Tpl.lit "ل"]))) (some ((pstr "للّ"), [Tpl.lit "لۡل"])) none [] [] [] [],
  Rule.mk "MITHL-yy" none (some ((pstr "ییّ"), [Tpl.lit "یۡی"])) none MITHL_yy_EXCLUDE_INDEXES [] [] [],
  Rule.mk "MITHL-hh" none (some ((pstr "ههّ"), [Tpl.lit "هۡه"])) none [] [] [] [],
  Rule.mk "MITHL-ww" (some (BoundaryRule.mk (pseq [(.ch 'و'), (.opt (.grp 1 (pstr "ا۟")))]) (pstr "وّ") [Tpl.lit "وۡ", Tpl.ref 1] (some [Tpl.lit "و"]))) none none [] [] [] [],
  Rule.mk "MITHL-tt" (some (BoundaryRule.mk (.ch 'ت') (pstr "تّ") [Tpl.lit "تۡ"] (some [Tpl.lit "ت"]))) none none [] [] [] [],
  Rule.mk "MITHL-rr" (some (BoundaryRule.mk (.ch 'ر') (pstr "رّ") [Tpl.lit "رۡ"] (some [Tpl.lit "ر"]))) none none [] [] [] [],
  Rule.mk "MITHL-ðð" (some (BoundaryRule.mk (.ch 'ذ') (pstr "ذّ") [Tpl.lit "ذۡ"] (some [Tpl.lit "ذ"]))) none none [] [] [] [],
  Rule.mk "MITHL-ff" (some (BoundaryRule.mk (.ch 'ف') (pstr "فّ") [Tpl.lit "فۡ"] (some [Tpl.lit "ف"]))) none none [] [] [] [],
  Rule.mk "MITHL-33" (some (BoundaryRule.mk (.ch 'ع') (pstr "عّ") [Tpl.lit "عۡ"] (some [Tpl.lit "ع"]))) none none [] [] [] [],
  Rule.mk "MTJNS-dt" (some (BoundaryRule.mk (.ch 'د') (pstr "تّ") [Tpl.lit "دۡ"] (some [Tpl.lit "ت"]))) (some ((pstr "دتّ"), [Tpl.lit "دۡت"])) none [] [] [] [],
  Rule.mk "MTJNS-td" (some (BoundaryRule.mk (.ch 'ت') (pstr "دّ") [Tpl.lit "تۡ"] (some [Tpl.lit "د"]))) none none [] [] [] [],
  Rule.mk "MTJNS-tT" (some (BoundaryRule.mk (.ch 'ت') (pstr "طّ") [Tpl.lit "تۡ"] (some [Tpl.lit "ط"]))) none none [] [] [] [],
  Rule.mk "MTJNS-ṯð" (some (BoundaryRule.mk (.ch 'ث') (pstr "ذّ") [Tpl.lit "ثۡ"] (some [Tpl.lit "ذ"]))) none none [] [] [] [],
  Rule.mk "MTJNS-lr" (some (BoundaryRule.mk (.ch 'ل') (pstr "رّ") [Tpl.lit "لۡ"] (some [Tpl.lit "ر"]))) none none [] [] [] [],
  Rule.mk "MTJNS-ðṮ" (some (BoundaryRule.mk (.ch 'ذ') (pstr "ظّ") [Tpl.lit "ذۡ"] (some [Tpl.lit "ظ"]))) none none [] [] [] [],
  Rule.mk "MTJNS-qk" none (some ((pstr "قكّ"), [Tpl.lit "قۡك"])) none [] [] [] [],
  Rule.mk "MTJNS-bm" (some (BoundaryRule.mk (.ch 'ب') (pstr "مّ") [Tpl.lit "بۡ"] (some [Tpl.lit "م"]))) none none [] [] [] [],
  Rule.mk "t-assim" none (some ((pstr "طت"), [Tpl.lit "طۡت"])) none [] [] [] [],
  Rule.mk "HU" (some (BoundaryRule.mk (pseq [(.lbehind false ["َ".toList, "ُ".toList, "ِ".toList]), (.ch 'ه'), (.ch 'ُ'), (.ch 'ۥ')]) (pncl "ٱ") [Tpl.lit "هُ"] none)) none none [(39,7,13)] [] [] [],
  Rule.mk "min-u-1" none (some ((pstr "دَاوُۥد"), [Tpl.lit "دَاوُد"])) none [] [] [] [],
  Rule.mk "min-u-2" none (some ((pseq [(.grp 1 (pcl "یت")), (.ch 'َ'), (.ch 'ل'), (.ch 'ۡ'), (.ch 'و'), (.ch 'ُ'), (.ch 'ۥ'), (.ch 'ن'), (.ch 'َ')]), [Tpl.ref 1, Tpl.lit "َلۡوُنَ"])) none [] [] [] [],
  Rule.mk "min-u-3" none (some ((pstr "وُۥرِیَ"), [Tpl.lit "وُرِیَ"])) none [] [] [] [],
  Rule.mk "min-u-4" none (some ((pseq [(.grp 1 (palt [(pstr "لِت"), (.ch 'ی')])), (.ch 'َ'), (.ch 'س'), (.ch 'ۡ'), (.ch 'ت'), (.ch 'َ'), (.ch 'و'), (.ch 'ُ'), (.ch 'ۥ'), (.grp 2 (palt [(pstr "ا۟"), (pstr "نَ")]))]), [Tpl.ref 1, Tpl.lit "َسۡتَوُ", Tpl.ref 2])) none [] [] [] [],
  Rule.mk "min-u-5" none (some ((pseq [(.opt (.grp 1 (pstr "وَ"))), (.ch 'ٱ'), (.ch 'ل'), (.ch 'ۡ'), (.ch 'غ'), (.ch 'َ'), (.ch 'ا'), (.ch 'و'), (.ch 'ُ'), (.ch 'ۥ'), (.ch 'ن'), (.ch 'َ')]), [Tpl.ref 1, Tpl.lit "ٱلۡغَاوُنَ"])) none [] [] [] [],
  Rule.mk "min-u-6" none (some ((pstr "ٱلۡمَوۡءُۥدَةُ"), [Tpl.lit "ٱلۡمَوۡءُدَةُ"])) none [] [] [] [],
  Rule.mk "min-u-7" none (some ((pstr "وُۥ"), [Tpl.lit "وُ"])) none [] [] [] RESTRICT_INDEXES_MIN_U_7,
  Rule.mk "min-u-8" none (some ((pseq [(.ch 'ل'), (.ch 'ِ'), (.ch 'ی'), (.ch 'َ'), (.ch 'س'), (.ch 'ُ'), (.ch 'ۥ'), (.opt (.grp 1 (.ch 'ـ'))), (.ch 'ٔ'), (.ch 'ُ'), (.ch 'و'), (.ch 'ا')]), [Tpl.lit "لِیَسُ", Tpl.ref 1, Tpl.lit "ُٔوا"])) none [] [] [] [(17,7,12)],
  Rule.mk "HI" (some (BoundaryRule.mk (pseq [(.lbehind false ["َ".toList, "ُ".toList, "ِ".toList]), (.ch 'ه'), (.ch 'ِ'), (.ch 'ۦ')]) (pncl "ٱ") [Tpl.lit "هِ"] none)) none none [] [] [] [],
  Rule.mk "min-y-1" none (some ((pstr "إِبۡرَٰهِۧم"), [Tpl.lit "إِبۡرَٰهِم"])) none [] [] [] [],
  Rule.mk "min-y-2" none (some ((pstr "نَبِیِّۧ"), [Tpl.lit "نَبِیِّ"])) none EXCLUDE_INDEXES_MIN_Y_2 [] [] [],
  Rule.mk "min-y-3" (some (BoundaryRule.mk (pseq [.bos, (.ch 'ی'), (.ch 'ُ'), (.ch 'ح'), (.ch 'ۡ'), (.ch 'ی'), (.ch 'ِ'), (.ch 'ۦ'), .eos]) (pncl "ٱ") [Tpl.lit "یُحۡیِ"] none)) none none [] [] [] [],
  Rule.mk "min-y-4" none (some ((pseq [(.ch 'ۦ'), .eos]), [])) none [] [] [] RESTRICT_INDEXES_MIN_Y_4,
  Rule.mk "min-y-5" none (some ((pseq [(.ch 'ِ'), (.ch 'ۧ'), (.ch 'ن'), (.ch 'َ'), .eos]), [Tpl.lit "ِنَ"])) none [] [] [] RESTRICT_INDEXES_MIN_5,
  Rule.mk "min-y-6" none (some ((pstr "ءَاتَىٰنِۦ"), [Tpl.lit "ءَاتَىٰنِ"])) none [] [] [] [(27,36,8)],
  Rule.mk "min-y-7" none (some ((pstr "إِۧلَٰفِهِمۡ"), [Tpl.lit "إِلَٰفِهِمۡ"])) none [] [] [] [(106,2,1)],
  Rule.mk "min-y-8" none (some ((pstr "حِۡۧی"), [Tpl.lit "حِۡی"])) none [] [] [] [(25,49,1), (46,33,15), (75,40,6)],
  Rule.mk "min-y-9" none (some ((pstr "وَلِِّۧی"), [Tpl.lit "وَلِِّی"])) none [] [] [] [(7,196,2)],
  Rule.mk "min-y-A" none (some ((pstr "یَسۡتَحۡیِۦ"), [Tpl.lit "یَسۡتَحۡیِ"])) none [] [] [] [(2,26,5)],
  Rule.mk "sakt-1" none (some ((pstr "صۜ"), [Tpl.lit "ص"])) none [] [] [] [(2,245,14), (7,69,22)],
  Rule.mk "sakt-2" none (some ((pstr "اۜ"), [Tpl.lit "ا"])) none [] [] [] [(18,1,15), (36,52,6)],
  Rule.mk "sakt-3" none (some ((pstr "ۡۜ"), [Tpl.lit "ۡ"])) none [] [] [] [(69,28,4), (75,27,2), (83,14,2)],
  Rule.mk "P-sil-1" none (some ((pseq [.bos, (.grp 1 (palt [(pseq [(.opt (palt [(pstr "وَ"), (pstr "فَ")])), (.ch 'أ'), (.ch 'َ'), (.ch 'ن'), (.ch 'َ'), (.ch 'ا')]), (pstr "لَٰكِنَّا"), (pstr "ٱلۡرَسُولَا"), (pstr "ٱلۡسَبِیلَا"), (pstr "ٱلۡظُنُونَا")])), (.ch '۠'), .eos]), [Tpl.ref 1])) none [] [] [] [],
  Rule.mk "P-sil-2" none (some ((pstr "قَوَارِیرَا۠"), [Tpl.lit "قَوَارِیرَا"])) none [] [] [] [(76,15,8)],
  Rule.mk "Sil-1" none (some ((pseq [(.ch 'و'), (.ch 'ا'), (.ch '۟'), .eos]), [Tpl.lit "وا"])) none [] [] [] [],
  Rule.mk "Sil-2" none (some ((pseq [(.ch 'َ'), (.ch 'و'), (.ch 'ۡ'), (.ch 'ا'), (.ch '۟'), .eos]), [Tpl.lit "َوۡا"])) none [] [] [] [],
  Rule.mk "Sil-3" none (some ((pstr "أُو۟لَٰىِٕك"), [Tpl.lit "أُولَٰىِٕك"])) none [] [] [] [],
  Rule.mk "Sil-4" (some (BoundaryRule.mk (pseq [(.ch 'و'), (.grp 1 (pcl "َُ")), (.ch 'ا'), (.ch '۟')]) (.ch 'ٱ') [Tpl.lit "و", Tpl.ref 1, Tpl.lit "ا"] none)) none none EXCLUDE_INDEXES_SIL_5 [] [] [],
  Rule.mk "Sil-5" none (some ((pstr "ؤُا۟"), [Tpl.lit "ؤُا"])) none [] [] [] RESTRICT_INDEXES_SIL_6,
  Rule.mk "Sil-6" none (some ((pstr "أُو۟"), [Tpl.lit "أُو"])) none [] [] [] RESTRICT_INDEXES_SIL_7,
  Rule.mk "Sil-7" none (some ((pseq [(.ch 'ا'), (.ch '۟'), (.nlook .eos)]), [Tpl.lit "ا"])) none [] [] [] RESTRICT_INDEXES_SIL_8,
  Rule.mk "Sil-8" none (some ((pstr "إِی۟"), [Tpl.lit "إِی"])) none [] [] [] RESTRICT_INDEXES_SIL_9,
  Rule.mk "Sil-9" none (some ((pseq [(.ch 'ا'), (.ch '۟'), .eos]), [Tpl.lit "ا"])) none [(76,16,1)] [] [] RESTRICT_INDEXES_SIL_A,
  Rule.mk "Sil-A" none (some ((pstr "ا۟"), [Tpl.lit "ا"])) none [] [] [] [(39,69,7), (89,23,1)],
  Rule.mk "Sil-B" none (some ((pstr "قَوَارِیرَا۟"), [Tpl.lit "قَوَارِیرَا"])) none [] [] [] [(76,16,1)],
  Rule.mk "Sil-C" none (some ((pstr "بِأَیۡی۟دٍ"), [Tpl.lit "بِأَیۡیدٍ"])) none [] [] [] [(51,47,3)],
  Rule.mk "Sil-D" none (some ((pseq [(.ch 'ت'), (.ch 'َ'), (.ch 'ا'), (.ch '۟'), (.ch 'ی'), (.ch 'ۡ'), (.opt (.grp 1 (.ch 'ـ'))), (.ch 'ٔ'), (.ch 'َ'), (.ch 'س'), (.ch 'ُ'), (.ch 'و'), (.ch 'ا')]), [Tpl.lit "تَایۡ", Tpl.ref 1, Tpl.lit "َٔسُوا"])) none [] [] [] [(12,87,8)],
  Rule.mk "Sil-E" none (some ((pstr "لَأَا۟ذۡبَحَنَّهُ"), [Tpl.lit "لَأَاذۡبَحَنَّهُ"])) none [] [] [] [(27,21,5)],
  Rule.mk "Sil-F" none (some ((pstr "لِشَا۟یۡءٍ"), [Tpl.lit "لِشَایۡءٍ"])) none [] [] [] [(18,23,3)],
  Rule.mk "Sil-G" none (some ((pstr "یَا۟"), [Tpl.lit "یَا"])) none [] [] [] [(12,87,14), (13,31,20)],
  Rule.mk "hapax-1" none (some ((pstr "مَجۡر۪ىٰهَا"), [Tpl.lit "مَجۡرىٰهَا"])) none [] [] [] [],
  Rule.mk "hapax-2" none (some ((pstr "تَأۡمَ۫نَّا"), [Tpl.lit "تَأۡمَنَّا"])) none [] [] [] [],
  Rule.mk "hapax-3" none (some ((pstr "ءَا۬عۡجَمِیّ"), [Tpl.lit "ءَاعۡجَمِیّ"])) none [] [] [] []
]

/-- `RESTORE_SANDHI_RULES` from tajweed.py, each regex translated to the Pat AST. -/
def RESTORE_SANDHI_RULES : List Rule := [
  Rule.mk "hapax-1" none (some ((pstr "مَجۡرىٰهَا"), [Tpl.lit "مَجۡر۪ىٰهَا"])) none [] [] [] [],
  Rule.mk "hapax-2" none (some ((pstr "تَأۡمَنَّا"), [Tpl.lit "تَأۡمَ۫نَّا"])) none [] [] [] [],
  Rule.mk "hapax-3" none (some ((pstr "ءَاعۡجَمِیّ"), [Tpl.lit "ءَا۬عۡجَمِیّ"])) none [] [] [] [],
  Rule.mk "P-sil-1" none (some ((pseq [.bos, (.grp 1 (palt [(pseq [(.opt (palt [(pstr "وَ"), (pstr "فَ")])), (.ch 'أ'), (.ch 'َ'), (.ch 'ن'), (.ch 'َ'), (.ch 'ا')]), (pstr "لَّٰكِنَّا"), (pstr "ٱلۡرَسُولَا"), (pstr "ٱلۡسَبِیلَا"), (pstr "ٱلۡظُنُونَا")])), .eos]), [Tpl.ref 1, Tpl.lit "۠"])) none EXCLUDE_INDEXES_SIL_1 [] [] [],
  Rule.mk "P-sil-2" none (some ((pstr "قَوَارِیرَا"), [Tpl.lit "قَوَارِیرَا۠"])) none [] [] [] [(76,15,8)],
  Rule.mk "sakt-1" none (some ((.ch 'ص'), [Tpl.lit "صۜ"])) none [] [] [] [(2,245,14), (7,69,22)],
  Rule.mk "sakt-2" none (some ((.ch 'ا'), [Tpl.lit "اۜ"])) none [] [] [] [(18,1,15), (36,52,6)],
  Rule.mk "sakt-3" none (some ((.ch 'ۡ'), [Tpl.lit "ۡۜ"])) none [] [] [] [(69,28,4), (75,27,2), (83,14,2)],
  Rule.mk "Sil-1" none (some ((pseq [(.ch 'و'), (.ch 'ا'), .eos]), [Tpl.lit "وا۟"])) none [] [] [] [],
  Rule.mk "Sil-2" none (some ((pseq [(.ch 'َ'), (.ch 'و'), (.ch 'ۡ'), (.ch 'ا'), .eos]), [Tpl.lit "َوۡا۟"])) none [] [] [] [],
  Rule.mk "Sil-3" none (some ((pstr "أُولَٰىِٕك"), [Tpl.lit "أُو۟لَٰىِٕك"])) none [] [] [] [],
  Rule.mk "Sil-4" (some (BoundaryRule.mk (pseq [(.ch 'و'), (.grp 1 (pcl "َُ")), (.ch 'ا')]) (.ch 'ٱ') [Tpl.lit "و", Tpl.ref 1, Tpl.lit "ا۟"] none)) none none EXCLUDE_INDEXES_SIL_5 [] [] [],
  Rule.mk "Sil-5" none (some ((pstr "ؤُا"), [Tpl.lit "ؤُا۟"])) none [] [] [] RESTRICT_INDEXES_SIL_6,
  Rule.mk "Sil-6" none (some ((pstr "أُو"), [Tpl.lit "أُو۟"])) none [] [] [] RESTRICT_INDEXES_SIL_7,
  Rule.mk "Sil-7" none (some ((pseq [(.ch 'ا'), (.nlook .eos)]), [Tpl.lit "ا۟"])) none [] [] [] RESTRICT_INDEXES_SIL_8,
  Rule.mk "Sil-8" none (some ((pstr "إِی"), [Tpl.lit "إِی۟"])) none [] [] [] RESTRICT_INDEXES_SIL_9,
  Rule.mk "Sil-9" none (some ((pseq [(.ch 'ا'), .eos]), [Tpl.lit "ا۟"])) none [(76,16,1)] [] [] RESTRICT_INDEXES_SIL_A,
  Rule.mk "Sil-A" none (some ((.ch 'ا'), [Tpl.lit "ا۟"])) none [] [] [] [(39,69,7), (89,23,1)],
  Rule.mk "Sil-B" none (some ((pstr "قَوَارِیرَا"), [Tpl.lit "قَوَارِیرَا۟"])) none [] [] [] [(76,16,1)],
  Rule.mk "Sil-C" none (some ((pstr "بِأَیۡیدٍ"), [Tpl.lit "بِأَیۡی۟دٍ"])) none [] [] [] [(51,47,3)],
  Rule.mk "Sil-D" none (some ((pseq [(.ch 'ت'), (.ch 'َ'), (.ch 'ا'), (.ch 'ی'), (.ch 'ۡ'), (.opt (.grp 1 (.ch 'ـ'))), (.ch 'ٔ'), (.ch 'َ'), (.ch 'س'), (.ch 'ُ'), (.ch 'و'), (.ch 'ا')]), [Tpl.lit "تَا۟یۡ", Tpl.ref 1, Tpl.lit "َٔسُوا"])) none [] [] [] [(12,87,8)],
  Rule.mk "Sil-E" none (some ((pstr "لَأَاذۡبَحَنَّهُ"), [Tpl.lit "لَأَا۟ذۡبَحَنَّهُ"])) none [] [] [] [(27,21,5)],
  Rule.mk "Sil-F" none (some ((pstr "لِشَایۡءٍ"), [Tpl.lit "لِشَا۟یۡءٍ"])) none [] [] [] [(18,23,3)],
  Rule.mk "Sil-G" none (some ((pstr "یَا"), [Tpl.lit "یَا۟"])) none [] [] [] [(12,87,14), (13,31,20)],
  Rule.mk "M1" (some (BoundaryRule.mk (pstr "مۡ") (.ch 'ب') [Tpl.lit "م"] (some [Tpl.lit "ب"]))) none none [] [] [] [],
  Rule.mk "M2" (some (BoundaryRule.mk (pstr "مۡ") (.ch 'م') [Tpl.lit "م"] (some [Tpl.lit "مّ"]))) none none [] [] [] [],
  Rule.mk "N2.1.1.A" (some (BoundaryRule.mk (pstr "نۡ") (.grp 1 (pcl "نم")) [Tpl.lit "ن"] (some [Tpl.ref 1, Tpl.lit "ّ"]))) none none [] [] [] [],
  Rule.mk "N2.1.1.B" (some (BoundaryRule.mk (pseq [(.ch 'ً'), (.grp 1 (.opt (pcl "ای")))]) (.grp 1 (pcl "نم")) [Tpl.lit "ࣰ", Tpl.ref 1] (some [Tpl.ref 1, Tpl.lit "ّ"]))) none none [] [] [] [],
  Rule.mk "N2.1.1.C" (some (BoundaryRule.mk (pseq [(.ch 'ٌ'), (.opt (.grp 1 (pstr "ا۟")))]) (.grp 1 (pcl "نم")) [Tpl.lit "ࣱ", Tpl.ref 1] (some [Tpl.ref 1, Tpl.lit "ّ"]))) none none [] [] [] [],
  Rule.mk "N2.1.1.D" (some (BoundaryRule.mk (.ch 'ٍ') (.grp 1 (pcl "نم")) [Tpl.lit "ࣲ"] (some [Tpl.ref 1, Tpl.lit "ّ"]))) none none [] [] [] [],
  Rule.mk "N2.1.2.A" (some (BoundaryRule.mk (pstr "نۡ") (pcl "وی") [Tpl.lit "ن"] none)) none none [] [] [] [],
  Rule.mk "N2.1.2.B" (some (BoundaryRule.mk (pseq [(.ch 'ً'), (.grp 1 (.opt (pcl "ای")))]) (pcl "وی") [Tpl.lit "ࣰ", Tpl.ref 1] none)) none none [] [] [] [],
  Rule.mk "N2.1.2.C" (some (BoundaryRule.mk (.ch 'ٌ') (pcl "وی") [Tpl.lit "ࣱ"] none)) none none [] [] [] [],
  Rule.mk "N2.1.2.D" (some (BoundaryRule.mk (.ch 'ٍ') (pcl "وی") [Tpl.lit "ࣲ"] none)) none none [] [] [] [],
  Rule.mk "N2.2.A" (some (BoundaryRule.mk (pstr "نۡ") (.grp 1 (pcl "رل")) [Tpl.lit "ن"] (some [Tpl.ref 1, Tpl.lit "ّ"]))) none none [] [] [] [],
  Rule.mk "N2.2.B" (some (BoundaryRule.mk (pseq [(.ch 'ً'), (.grp 1 (.opt (pcl "ای")))]) (.grp 1 (pcl "رل")) [Tpl.lit "ࣰ", Tpl.ref 1] (some [Tpl.ref 1, Tpl.lit "ّ"]))) none none [] [] [] [],
  Rule.mk "N2.2.C" (some (BoundaryRule.mk (.ch 'ٌ') (.grp 1 (pcl "رل")) [Tpl.lit "ࣱ"] (some [Tpl.ref 1, Tpl.lit "ّ"]))) none none [] [] [] [],
  Rule.mk "N2.2.D" (some (BoundaryRule.mk (.ch 'ٍ') (.grp 1 (pcl "رل")) [Tpl.lit "ࣲ"] (some [Tpl.ref 1, Tpl.lit "ّ"]))) none none [] [] [] [],
  Rule.mk "N3.A" (some (BoundaryRule.mk (pstr "نۡ") (.ch 'ب') [Tpl.lit "نۢ"] none)) (some ((pseq [(.ch 'ن'), (.ch 'ۡ'), (.look (.ch 'ب'))]), [Tpl.lit "نۢ"])) none [] [] [] [],
  Rule.mk "N3.B" (some (BoundaryRule.mk (pseq [(.ch 'ً'), (.opt (.grp 1 (.ch 'ا')))]) (.ch 'ب') [Tpl.lit "َۢ", Tpl.ref 1] none)) none none [] [] [] [],
  Rule.mk "N3.C" (some (BoundaryRule.mk (.ch 'ٌ') (.ch 'ب') [Tpl.lit "ُۢ"] none)) none none [] [] [] [],
  Rule.mk "N3.D" (some (BoundaryRule.mk (.ch 'ٍ') (.ch 'ب') [Tpl.lit "ِۭ"] none)) none none [] [] [] [],
  Rule.mk "N4.A" (some (BoundaryRule.mk (pstr "نۡ") (.look (pcl IKHFA2)) [Tpl.lit "ن"] none)) (some ((pseq [(.ch 'ن'), (.ch 'ۡ'), (.look (pcl IKHFA2))]), [Tpl.lit "ن"])) none [] [] [] [],
  Rule.mk "N4.B" (some (BoundaryRule.mk (pseq [(.ch 'ً'), (.opt (.grp 1 (pcl "ای")))]) (.look (pcl IKHFA2)) [Tpl.lit "ࣰ", Tpl.ref 1] none)) none none [] [] [] [],
  Rule.mk "N4.C" (some (BoundaryRule.mk (.ch 'ٌ') (.look (pcl IKHFA2)) [Tpl.lit "ࣱ"] none)) none none [] [] [] [],
  Rule.mk "N4.D" (some (BoundaryRule.mk (.ch 'ٍ') (.look (pcl IKHFA2)) [Tpl.lit "ࣲ"] none)) none none [] [] [] [],
  Rule.mk "SHMS" none (some ((pseq [(.grp 1 (palt [(.ch 'ٱ'), (pseq [(.ch 'ل'), (.opt (.ch 'ّ')), (.ch 'ِ')]), (pstr "وَلَ"), (pstr "ءَا")])), (.ch 'ل'), (.ch 'ۡ'), (.grp 2 (pcl "طثصرتضذندسظزشل"))]), [Tpl.ref 1, Tpl.lit "ل", Tpl.ref 2, Tpl.lit "ّ"])) (some "N") [] [] [] [],
  Rule.mk "MITHL-bb" (some (BoundaryRule.mk (pstr "بۡ") (.ch 'ب') [Tpl.lit "ب"] (some [Tpl.lit "بّ"]))) none none [] [] [] [],
  Rule.mk "MITHL-dd" (some (BoundaryRule.mk (pstr "دۡ") (.ch 'د') [Tpl.lit "د"] (some [Tpl.lit "دّ"]))) (some ((pstr "دۡد"), [Tpl.lit "ددّ"])) none [] [] [] [],
  Rule.mk "MITHL-kk" (some (BoundaryRule.mk (pstr "كۡ") (.ch 'ك') [Tpl.lit "ك"] (some [Tpl.lit "كّ"]))) (some ((pstr "كۡك"), [Tpl.lit "ككّ"])) none [] [] [] [],
  Rule.mk "MITHL-ll" (some (BoundaryRule.mk (pstr "لۡ") (.ch 'ل') [Tpl.lit "ل"] (some [Tpl.lit "لّ"]))) (some ((pstr "لۡل"), [Tpl.lit "للّ"])) none [] [] [] [],
  Rule.mk "MITHL-yy" none (some ((pstr "یۡی"), [Tpl.lit "ییّ"])) none MITHL_yy_EXCLUDE_INDEXES [] [] [],
  Rule.mk "MITHL-hh" none (some ((pstr "هۡه"), [Tpl.lit "ههّ"])) none [] [] [] [],
  Rule.mk "MITHL-ww" (some (BoundaryRule.mk (pseq [(.ch 'و'), (.ch 'ۡ'), (.opt (.grp 1 (pstr "ا۟")))]) (.ch 'و') [Tpl.lit "و", Tpl.ref 1] (some [Tpl.lit "وّ"]))) none none [] [] [] [],
  Rule.mk "MITHL-tt" (some (BoundaryRule.mk (pstr "تۡ") (.ch 'ت') [Tpl.lit "ت"] (some [Tpl.lit "تّ"]))) none none [] [] [] [],
  Rule.mk "MITHL-rr" (some (BoundaryRule.mk (pstr "رۡ") (.ch 'ر') [Tpl.lit "ر"] (some [Tpl.lit "رّ"]))) none none [] [] [] [],
  Rule.mk "MITHL-ðð" (some (BoundaryRule.mk (pstr "ذۡ") (.ch 'ذ') [Tpl.lit "ذ"] (some [Tpl.lit "ذّ"]))) none none [] [] [] [],
  Rule.mk "MITHL-ff" (some (BoundaryRule.mk (pstr "فۡ") (.ch 'ف') [Tpl.lit "ف"] (some [Tpl.lit "فّ"]))) none none [] [] [] [],
  Rule.mk "MITHL-33" (some (BoundaryRule.mk (pstr "عۡ") (.ch 'ع') [Tpl.lit "ع"] (some [Tpl.lit "عّ"]))) none none [] [] [] [],
  Rule.mk "MTJNS-dt" (some (BoundaryRule.mk (pstr "دۡ") (.ch 'ت') [Tpl.lit "د"] (some [Tpl.lit "تّ"]))) (some ((pstr "دۡت"), [Tpl.lit "دتّ"])) none [] [] [] [],
  Rule.mk "MTJNS-td" (some (BoundaryRule.mk (pstr "تۡ") (.ch 'د') [Tpl.lit "ت"] (some [Tpl.lit "دّ"]))) none none [] [] [] [],
  Rule.mk "MTJNS-tT" (some (BoundaryRule.mk (pstr "تۡ") (.ch 'ط') [Tpl.lit "ت"] (some [Tpl.lit "طّ"]))) none none [] [] [] [],
  Rule.mk "MTJNS-ṯð" (some (BoundaryRule.mk (pstr "ثۡ") (.ch 'ذ') [Tpl.lit "ث"] (some [Tpl.lit "ذّ"]))) none none [] [] [] [],
  Rule.mk "MTJNS-lr" (some (BoundaryRule.mk (pstr "لۡ") (.ch 'ر') [Tpl.lit "ل"] (some [Tpl.lit "رّ"]))) (some ((pstr "لۡر"), [Tpl.lit "لرّ"])) none [] [] [] [],
  Rule.mk "MTJNS-ðṮ" (some (BoundaryRule.mk (pstr "ذۡ") (.ch 'ظ') [Tpl.lit "ذ"] (some [Tpl.lit "ظّ"]))) none none [] [] [] [],
  Rule.mk "MTJNS-qk" none (some ((pstr "قۡك"), [Tpl.lit "قكّ"])) none [] [] [] [],
  Rule.mk "MTJNS-bm" (some (BoundaryRule.mk (pstr "بۡ") (.ch 'م') [Tpl.lit "ب"] (some [Tpl.lit "مّ"]))) none none [] [] [] [],
  Rule.mk "t-assim" none (some ((pstr "طۡت"), [Tpl.lit "طت"])) none [] [] [] [],
  Rule.mk "HU" (some (BoundaryRule.mk (pseq [(.lbehind false ["َ".toList, "ُ".toList, "ِ".toList]), (.ch 'ه'), (.ch 'ُ')]) (pncl "ٱ") [Tpl.lit "هُۥ"] none)) none none [(39,7,13)] [] [] [],
  Rule.mk "min-u-1" none (some ((pstr "دَاوُد"), [Tpl.lit "دَاوُۥد"])) none [] [] [] [],
  Rule.mk "min-u-2" none (some ((pseq [(.grp 1 (pcl "یت")), (.ch 'َ'), (.ch 'ل'), (.ch 'ۡ'), (.ch 'و'), (.ch 'ُ'), (.ch 'ن'), (.ch 'َ')]), [Tpl.ref 1, Tpl.lit "َلۡوُۥنَ"])) none [] [] [] [],
  Rule.mk "min-u-3" none (some ((pstr "وُرِیَ"), [Tpl.lit "وُۥرِیَ"])) none [] [] [] [],
  Rule.mk "min-u-4" none (some ((pseq [(.grp 1 (palt [(pstr "لِت"), (.ch 'ی')])), (.ch 'َ'), (.ch 'س'), (.ch 'ۡ'), (.ch 'ت'), (.ch 'َ'), (.ch 'و'), (.ch 'ُ'), (.grp 2 (palt [(pstr "ا۟"), (pstr "نَ")]))]), [Tpl.ref 1, Tpl.lit "َسۡتَوُۥ", Tpl.ref 2])) none [] [] [] [],
  Rule.mk "min-u-5" none (some ((pseq [(.opt (.grp 1 (pstr "وَ"))), (.ch 'ٱ'), (.ch 'ل'), (.ch 'ۡ'), (.ch 'غ'), (.ch 'َ'), (.ch 'ا'), (.ch 'و'), (.ch 'ُ'), (.ch 'ن'), (.ch 'َ')]), [Tpl.ref 1, Tpl.lit "ٱلۡغَاوُۥنَ"])) none [] [] [] [],
  Rule.mk "min-u-6" none (some ((pstr "ٱلۡمَوۡءُدَةُ"), [Tpl.lit "ٱلۡمَوۡءُۥدَةُ"])) none [] [] [] [],
  Rule.mk "min-u-7" none (some ((pstr "وُ"), [Tpl.lit "وُۥ"])) none [] [] [] RESTRICT_INDEXES_MIN_U_7,
  Rule.mk "min-u-8" none (some ((pseq [(.ch 'ل'), (.ch 'ِ'), (.ch 'ی'), (.ch 'َ'), (.ch 'س'), (.ch 'ُ'), (.opt (.grp 1 (.ch 'ـ'))), (.ch 'ٔ'), (.ch 'ُ'), (.ch 'و'), (.ch 'ا')]), [Tpl.lit "لِیَسُۥ", Tpl.ref 1, Tpl.lit "ُٔوا"])) none [] [] [] [(17,7,12)],
  Rule.mk "HI" (some (BoundaryRule.mk (pseq [(.lbehind false ["َ".toList, "ُ".toList, "ِ".toList]), (.ch 'ه'), (.ch 'ِ')]) (pncl "ٱ") [Tpl.lit "هِۦ"] none)) none none [] [] [] [],
  Rule.mk "min-y-1" none (some ((pstr "إِبۡرَٰهِم"), [Tpl.lit "إِبۡرَٰهِۧم"])) none [] [] [] [],
  Rule.mk "min-y-2" none (some ((pstr "نَّبِیِّ"), [Tpl.lit "نَّبِیِّۧ"])) none EXCLUDE_INDEXES_MIN_Y_2 [] [] [],
  Rule.mk "min-y-3" (some (BoundaryRule.mk (pseq [.bos, (.ch 'ی'), (.ch 'ُ'), (.ch 'ح'), (.ch 'ۡ'), (.ch 'ی'), (.ch 'ِ'), .eos]) (pncl "ٱ") [Tpl.lit "یُحۡیِۦ"] none)) none none [] [] [] [],
  Rule.mk "min-y-4" none (some ((pseq [(.grp 1 .any), .eos]), [Tpl.ref 1, Tpl.lit "ۦ"])) none [] [] [] RESTRICT_INDEXES_MIN_Y_4,
  Rule.mk "min-y-5" none (some ((pseq [(.ch 'ِ'), (.ch 'ن'), (.ch 'َ'), .eos]), [Tpl.lit "ِۧنَ"])) none [] [] [] RESTRICT_INDEXES_MIN_5,
  Rule.mk "min-y-6" none (some ((pstr "ءَاتَىٰنِ"), [Tpl.lit "ءَاتَىٰنِۦ"])) none [] [] [] [(27,36,8)],
  Rule.mk "min-y-7" none (some ((pstr "إِلَٰفِهِمۡ"), [Tpl.lit "إِۧلَٰفِهِمۡ"])) none [] [] [] [(106,2,1)],
  Rule.mk "min-y-8" none (some ((pstr "حِۡی"), [Tpl.lit "حِۡۧی"])) none [] [] [] [(25,49,1), (46,33,15), (75,40,6)],
  Rule.mk "min-y-9" none (some ((pstr "وَلِِّی"), [Tpl.lit "وَلِِّۧی"])) none [] [] [] [(7,196,2)],
  Rule.mk "min-y-A" none (some ((pstr "یَسۡتَحۡیِ"), [Tpl.lit "یَسۡتَحۡیِۦ"])) none [] [] [] [(2,26,5)],
  Rule.mk "MADD-hmz" (some (BoundaryRule.mk (.grp 1 (palt [(pstr "َا"), (pstr "َیٰ"), (pseq [(.ch 'ُ'), (pcl "وۥ")]), (pseq [(.ch 'ِ'), (pcl "یۦ")])])) (palt [(pcl HAMZA), (pseq [(pcl "ىی"), (.ch 'ٕ')]), (.ch 'ٔ')]) [Tpl.ref 1, Tpl.lit "ٓ"] none)) (some ((pseq [(.grp 1 (palt [(pseq [(.ch 'َ'), (pcl "اٰ")]), (pseq [(.ch 'ُ'), (pcl "وۥ")]), (pseq [(.ch 'ِ'), (pcl "یۦ")])])), (.look (pseq [(.opt (.ch 'ـ')), (palt [(pcl HAMZA), (pseq [(pcl "ىی"), (.ch 'ٕ')]), (.ch 'ٔ')])]))]), [Tpl.ref 1, Tpl.lit "ٓ"])) none MADD_HMZ_EXCEPTION [] [] [],
  Rule.mk "MADD-hmz-A-sil" (some (BoundaryRule.mk (pstr "ُوا۟") (palt [(pcl HAMZA), (pseq [(pcl "ىی"), (.ch 'ٕ')])]) [Tpl.lit "ُوٓا۟"] none)) none none [] [] [] [],
  Rule.mk "MADD-hmz-sp-1" none (some ((pstr "تَلۡوُۥا۟"), [Tpl.lit "تَلۡوُۥٓا۟"])) none [] [] [] [],
  Rule.mk "MADD-hmz-sp-2" none (some ((pstr "فَأۡوُۥا۟"), [Tpl.lit "فَأۡوُۥٓا۟"])) none [] [] [] [],
  Rule.mk "MADD-hmz-sp-3" none (some ((pstr "وَجِا۟یءَ"), [Tpl.lit "وَجِا۟یٓءَ"])) none [] [] [] [],
  Rule.mk "MADD-hmz-sp-4" (some (BoundaryRule.mk (pstr "ٱلرِّبَوٰا۟") (pcl HAMZA) [Tpl.lit "ٱلرِّبَوٰٓا۟"] none)) none none [] [] [] [],
  Rule.mk "MADD-lzm" none (some ((pseq [(.grp 1 (palt [(pseq [(.ch 'َ'), (pcl "اٰ")]), (pstr "ُو"), (pstr "ِی")])), (.look (pseq [(pcl CONS), (palt [(pcl "ّْ"), (pcl CONS)])]))]), [Tpl.ref 1, Tpl.lit "ٓ"])) none [] [] [] [],
  Rule.mk "MADD-shdd-skn" none (some ((pseq [(.ch 'َ'), (.ch 'ا'), (.grp 1 (pcl CONS)), (.look (pcl "ّۡ"))]), [Tpl.lit "َآ", Tpl.ref 1])) none [] [] [] [],
  Rule.mk "MADD-sp-1" none (some ((pseq [.bos, (.ch 'ا'), (.ch 'ل'), (.ch 'م'), .eos]), [Tpl.lit "الٓمٓ"])) none [] [] [] [],
  Rule.mk "MADD-sp-2" none (some ((pseq [.bos, (.ch 'ط'), (.ch 'س'), (.ch 'م'), .eos]), [Tpl.lit "طسٓمٓ"])) none [] [] [] [],
  Rule.mk "MADD-sp-3" none (some ((pseq [.bos, (.ch 'ط'), (.ch 'س'), .eos]), [Tpl.lit "طسٓ"])) none [] [] [] [],
  Rule.mk "MADD-sp-4" none (some ((pseq [.bos, (.ch 'ی'), (.ch 'س'), .eos]), [Tpl.lit "یسٓ"])) none [] [] [] [],
  Rule.mk "MADD-sp-5" none (some ((pseq [.bos, (.ch 'ح'), (.ch 'م'), .eos]), [Tpl.lit "حمٓ"])) none [] [] [] [],
  Rule.mk "MADD-sp-6" none (some ((pseq [.bos, (.ch 'ك'), (.ch 'ه'), (.ch 'ی'), (.ch 'ع'), (.ch 'ص'), .eos]), [Tpl.lit "كٓهیعٓصٓ"])) none [] [] [] [],
  Rule.mk "MADD-sp-7" none (some ((pseq [.bos, (.ch 'ا'), (.ch 'ل'), (.ch 'ر'), .eos]), [Tpl.lit "الٓر"])) none [] [] [] [],
  Rule.mk "MADD-sp-8" none (some ((pseq [.bos, (.ch 'ا'), (.ch 'ل'), (.ch 'م'), (.ch 'ص'), .eos]), [Tpl.lit "الٓمٓصٓ"])) none [] [] [] [],
  Rule.mk "MADD-sp-9" none (some ((pseq [.bos, (.ch 'ا'), (.ch 'ل'), (.ch 'م'), (.ch 'ر'), .eos]), [Tpl.lit "الٓمٓر"])) none [] [] [] [],
  Rule.mk "MADD-sp-A" none (some ((pseq [.bos, (.ch 'ص'), .eos]), [Tpl.lit "صٓ"])) none [] [] [] [],
  Rule.mk "MADD-sp-B" none (some ((pseq [.bos, (.ch 'ع'), (.ch 'س'), (.ch 'ق'), .eos]), [Tpl.lit "عٓسٓقٓ"])) none [] [] [] [],
  Rule.mk "MADD-sp-C" none (some ((pseq [.bos, (.ch 'ق'), .eos]), [Tpl.lit "قٓ"])) none [] [] [] [],
  Rule.mk "MADD-sp-D" none (some ((pseq [.bos, (.ch 'ن'), .eos]), [Tpl.lit "نٓ"])) none [] [] [] []
]

/-- `SUKUN_REGEX` from tajweed.py `__main__`. -/
def SUKUN_PAT : Pat := (pseq [(pcl CONS), (.lbehind true ["ُو".toList, "ِی".toList]), (pcl CONS)])

/-- `SHADDA_REGEX` from tajweed.py `__main__`. -/
def SHADDA_PAT : Pat := (pseq [.bos, (pcl CONS), (.ch 'ّ')])

/-- `TANWIN_REGEX` from tajweed.py `__main__`. -/
def TANWIN_PAT : Pat := (palt [(pcl "ࣰࣱࣲ"), (pstr "َۢ"), (pstr "ُۢ"), (pstr "ِۭ")])

/-! ## The rule application engine (`apply_rules` in tajweed.py)

For each token position `i` (left to right) and each rule in declared
order: skip on `RESTRICT_INDEXES` / `EXCLUDE_INDEXES` / POS filter /
HU-HI morphological suppression, then apply the boundary part (patterns
anchored as `f'{TOK_PRE}$'` on token `i` and `f'^{TOK_POST}'` on token
`i+1`) and then the intra-word part.  A missing morphological record is a
`KeyError` in Python; here the engine returns `.error ind`. -/

/-- The text of the token at position `i` (total; positions used by the
    engine are always in range). -/
def getText (ts : List Token) (i : Nat) : String :=
  match ts[i]? with
  | some t => t.text
  | none => ""

/-- Replace the text of the token at position `i`, keeping its index
    (in-place `tokens[i][0] = new` in Python). -/
def setTextAt (ts : List Token) (i : Nat) (s : String) : List Token :=
  match ts[i]? with
  | some t => ts.set i (Token.mk s t.ind)
  | none => ts

/-- Append a `(rule, ind, cnt, is_boundary)` entry to the counts sink if a
    sink is present and `cnt` is non-zero. -/
def recordCount (c : Option (List CountEntry)) (rid : String) (ind : QIndex)
    (cnt : Nat) (bound : Bool) : Option (List CountEntry) :=
  match c with
  | none => none
  | some l => if cnt ≠ 0 then some (l ++ [CountEntry.mk rid ind cnt bound]) else some l

/-- The guard of steps 1-2: skip if `restrict_ind` is non-empty and `ind`
    is not a member, or if `ind ∈ except_ind`. -/
def guardSkip (r : Rule) (ind : QIndex) : Bool :=
  (!r.restrict_ind.isEmpty && !r.restrict_ind.contains ind) || r.except_ind.contains ind

/-- The POS-filter test `FILTER_POS and FILTER_POS not in qmorf[ind_key]['pos']`.
    The morphological record is looked up only when the rule has a POS
    filter; a missing record is a fatal lookup error. -/
def posFilterSkip (qm : QMorf) (r : Rule) (ind : QIndex) : Except QIndex Bool :=
  match r.filter_pos with
  | none => .ok false
  | some fp =>
    match qm ind with
    | none => .error ind
    | some m => .ok (!m.pos.contains fp)

/-- The last two characters of a string (`s[-2:]` in Python). -/
def last2 (l : List Char) : List Char := l.drop (l.length - 2)

/-- The HU/HI clitic-elongation suppression condition of `apply_rules`
    (lines 578 and 583): suppress when some root ends in ه, or some root's
    last two characters are هي, and (in both branches) the wordform's rasm
    does not end in هه.  `w` is the rasm of the current wordform. -/
def huhiSuppress (roots : List String) (w : List Char) : Bool :=
  (!roots.isEmpty && roots.any (fun r => r.toList.getLast? = some 'ه')
      && !(last2 w = "هه".toList))
  || (roots.any (fun r => last2 r.toList = "هي".toList) && !(last2 w = "هه".toList))

/-- The full HU/HI skip test: only when `ind ∉ FORCE_INDEXES` and the rule
    id is `HU` or `HI` is the morphological record consulted (fatal when
    missing) and `huhiSuppress` evaluated. -/
def clitSkip (qm : QMorf) (w : List Char) (r : Rule) (ind : QIndex) : Except QIndex Bool :=
  if !r.force_ind.contains ind && (r.id = "HU" || r.id = "HI") then
    match qm ind with
    | none => .error ind
    | some m => .ok (huhiSuppress m.roots w)
  else .ok false

/-- The boundary application of one rule at position `i`: if `i` is not the
    last position, `f'{pre}$'` matches token `i` and `f'^{post}'` matches
    token `i+1`, replace the matched tail of token `i` (recording the count
    as a boundary entry) and, when `repl_post` is present, the matched head
    of token `i+1`. -/
def boundaryApply (rid : String) (b : BoundaryRule) (ind : QIndex)
    (ntokens i : Nat) (st : EngineState) : EngineState :=
  let s_i := getText st.tokens i
  let s_next := getText st.tokens (i+1)
  if i < ntokens - 1 && searchEnd b.pre s_i && searchStart b.post s_next then
    let r := subnEnd b.pre b.repl_pre s_i
    let counts' := recordCount st.counts rid ind r.2 true
    let toks1 :=
      match b.repl_post with
      | none => st.tokens
      | some rp => setTextAt st.tokens (i+1) (subStart b.post rp s_next)
    EngineState.mk (setTextAt toks1 i r.1) counts'
  else st

/-- The intra-word application of one rule at position `i`: replace all
    matches inside token `i`'s text, recording the count as a non-boundary
    entry. -/
def intraApply (rid : String) (pr : Pat × Tmpl) (ind : QIndex) (i : Nat)
    (st : EngineState) : EngineState :=
  let r := subnP pr.1 pr.2 (getText st.tokens i)
  let counts' := recordCount st.counts rid ind r.2 false
  EngineState.mk (setTextAt st.tokens i r.1) counts'

/-- Both application forms of one rule, boundary first then intra (the
    intra part observes the boundary part's edit of token `i`). -/
def ruleApply (r : Rule) (ind : QIndex) (ntokens i : Nat) (st : EngineState) : EngineState :=
  let st1 :=
    match r.boundary with
    | none => st
    | some b => boundaryApply r.id b ind ntokens i st
  match r.intra with
  | none => st1
  | some pr => intraApply r.id pr ind i st1

/-- One iteration of the inner rule loop of `apply_rules`: the guards of
    steps 1-4 and then the rule application.  `w` is the precomputed rasm
    of token `i`'s wordform. -/
def ruleStep (qm : QMorf) (w : List Char) (ntokens : Nat) (r : Rule) (i : Nat)
    (st : EngineState) : Except QIndex EngineState :=
  match st.tokens[i]? with
  | none => .ok st
  | some t =>
    if guardSkip r t.ind then .ok st
    else
      match posFilterSkip qm r t.ind with
      | .error e => .error e
      | .ok true => .ok st
      | .ok false =>
        match clitSkip qm w r t.ind with
        | .error e => .error e
        | .ok true => .ok st
        | .ok false => .ok (ruleApply r t.ind ntokens i st)

/-- The inner rule loop at position `i`: fold `ruleStep` over the rule
    list, propagating a lookup error. -/
def rulesLoop (qm : QMorf) (w : List Char) (ntokens i : Nat) :
    List Rule → EngineState → Except QIndex EngineState
  | [], st => .ok st
  | r :: rs, st =>
    match ruleStep qm w ntokens r i st with
    | .error e => .error e
    | .ok st' => rulesLoop qm w ntokens i rs st'

/-- Processing of one token position: compute the wordform's rasm (the
    external `rasm` library, injected as `rasmFn`) and run the rule loop. -/
def tokenPass (qm : QMorf) (rasmFn : String → String) (rules : List Rule)
    (ntokens : Nat) (st : EngineState) (i : Nat) : Except QIndex EngineState :=
  rulesLoop qm (rasmFn (getText st.tokens i)).toList ntokens i rules st

/-- The outer loop of `apply_rules` over token positions. -/
def tokensLoop (qm : QMorf) (rasmFn : String → String) (rules : List Rule)
    (ntokens : Nat) : List Nat → EngineState → Except QIndex EngineState
  | [], st => .ok st
  | i :: is, st =>
    match tokenPass qm rasmFn rules ntokens st i with
    | .error e => .error e
    | .ok st' => tokensLoop qm rasmFn rules ntokens is st'

/-- `apply_rules(tokens, rules, qmorf, counts)` from tajweed.py: mutate the
    tokens in place over a full left-to-right pass, optionally recording
    per-rule occurrence counts; a missing morphological record aborts with
    the offending index. -/
def apply_rules (tokens : List Token) (rules : List Rule) (qm : QMorf)
    (counts : Option (List CountEntry)) (rasmFn : String → String) :
    Except QIndex EngineState :=
  tokensLoop qm rasmFn rules tokens.length (List.range tokens.length)
    (EngineState.mk tokens counts)

/-! ## The consistency verifier (`__main__` of tajweed.py, `--eval` mode) -/

/-- `":".join(map(str, ind))`. -/
def indColons (ind : QIndex) : String :=
  toString ind.1 ++ ":" ++ toString ind.2.1 ++ ":" ++ toString ind.2.2

/-- `' '.join(t for t,_ in qtokens)`. -/
def joinTexts (ts : List Token) : String :=
  " ".intercalate (ts.map Token.text)

/-- The per-token comparison lines of the round-trip check (lines 744-748):
    one ` diff ` or ` oki ` line per zipped (original, restored) pair. -/
def diffLines (qtokens qtokens_restored : List Token) : List String :=
  (qtokens.zip qtokens_restored).map (fun pr =>
    if pr.1.text ≠ pr.2.text then
      " diff " ++ pr.1.text ++ " " ++ pr.2.text ++ " (" ++ indColons pr.1.ind ++ ")"
    else
      " oki " ++ pr.1.text ++ " " ++ pr.2.text ++ " (" ++ indColons pr.1.ind ++ ")")

/-- The round-trip check of the eval run (lines 740-749): compare the
    space-joined original and restored texts; on a match report success
    (exit status 0), otherwise report failure, emit one line per zipped
    token pair, and exit with status 1 (`sys.exit(1)`). -/
def roundtripReport (qtokens qtokens_restored : List Token) : List String × Nat :=
  if joinTexts qtokens = joinTexts qtokens_restored then
    ([">> Original and restored qtexts match!"], 0)
  else
    (">> FAIL!! original and restored qtexts are different"
      :: diffLines qtokens qtokens_restored, 1)

/-- The residual sweep classifier (lines 764-803): the first matching
    residual-trace class of a de-tajweed-ized token, as
    `(diagnostic code, full warning line)`; `none` when the token is
    clean.  The branches are the `elif` chain of the source in order. -/
def residualWarning (tok : String) (ind : QIndex) : Option (String × String) :=
  let l := tok.toList
  let at_ := tok ++ " Q." ++ indColons ind
  if searchP SUKUN_PAT tok && !EXCEPTIONS_SUKUN.contains ind then
    some ("WARNING-1", "WARNING-1! untreated tajweed traces! consonant without harakat nor sukun in " ++ at_)
  else if searchP SHADDA_PAT tok then
    some ("WARNING-2", "WARNING-2! untreated tajweed traces! shadda on initial consonant of word in " ++ at_)
  else if searchP TANWIN_PAT tok then
    some ("WARNING-3", "WARNING-3! untreated tajweed traces! tanwin with tajweed in " ++ at_)
  else if l.contains 'ٓ' || l.contains 'آ' then
    some ("WARNING-4", "WARNING-4! untreated tajweed traces! madd sign found in " ++ at_)
  else if l.contains '۠' then
    some ("WARNING-5", "WARNING-5! untreated tajweed traces! mark for silent alif found in " ++ at_)
  else if l.contains 'ۦ' || l.contains 'ۧ' then
    some ("WARNING-6", "WARNING-6! untreated tajweed traces! miniature ya found in " ++ at_)
  else if l.contains 'ۥ' then
    some ("WARNING-7", "WARNING-7! untreated tajweed traces! miniature waw found in " ++ at_)
  else if l.contains '۟' then
    some ("WARNING-8", "WARNING-8! untreated tajweed traces! mark in alif for not pronouncing found in " ++ at_)
  else if l.contains '۪' then
    some ("WARNING-9", "WARNING-9! untreated tajweed traces! hapax sign U+06ea found in " ++ at_)
  else if l.contains '۫' then
    some ("WARNING-A", "WARNING-A! untreated tajweed traces! hapax sign U+06eb found in " ++ at_)
  else if l.contains '۬' then
    some ("WARNING-B", "WARNING-B! untreated tajweed traces! hapax sign U+06ec found in " ++ at_)
  else if l.contains 'ۢ' then
    some ("WARNING-C", "WARNING-C! untreated tajweed traces! miniature mim U+06e2 found in " ++ at_)
  else if l.contains 'ۜ' then
    some ("WARNING-C", "WARNING-C! untreated tajweed traces! miniature sin U+06dc found in " ++ at_)
  else none

/-- The residual sweep over all de-tajweed-ized tokens: the warning lines
    (one per hit, first matching class only) and the final total count
    (`print(f'Total {cnt} warnings')`). -/
def residualSweep (qtokens_detajweed : List Token) : List String × Nat :=
  let hits := qtokens_detajweed.filterMap (fun t => (residualWarning t.text t.ind).map Prod.snd)
  (hits, hits.length)

/-! ## Auxiliary definitions for the verification -/

/-- Can `p` match the empty string?  (Syntactic nullability; every
    `TOK_PRE` pattern of both rule tables is non-nullable.) -/
def nullable : Pat → Bool
  | .eps => true
  | .ch _ => false
  | .any => false
  | .cls _ _ => false
  | .seq p q => nullable p && nullable q
  | .alt p q => nullable p || nullable q
  | .opt _ => true
  | .grp _ p => nullable p
  | .look _ => true
  | .nlook _ => true
  | .lbehind _ _ => true
  | .bos => true
  | .eos => true

/-- Rule `M1` (the head of `REMOVE_SANDHI_RULES`). -/
def ruleM1 : Rule :=
  Rule.mk "M1" (some (BoundaryRule.mk (.ch 'م') (.ch 'ب') [Tpl.lit "مۡ"] (some [Tpl.lit "ب"]))) none none [] [] [] []

/-- Rule `HU` of `REMOVE_SANDHI_RULES`. -/
def ruleHU : Rule :=
  Rule.mk "HU" (some (BoundaryRule.mk (pseq [(.lbehind false ["َ".toList, "ُ".toList, "ِ".toList]), (.ch 'ه'), (.ch 'ُ'), (.ch 'ۥ')]) (pncl "ٱ") [Tpl.lit "هُ"] none)) none none [(39,7,13)] [] [] []

/-- Rule `min-y-4` of `REMOVE_SANDHI_RULES`. -/
def ruleMinY4 : Rule :=
  Rule.mk "min-y-4" none (some ((pseq [(.ch 'ۦ'), .eos]), [])) none [] [] [] RESTRICT_INDEXES_MIN_Y_4

/-- The HU/HI suppression condition as claim C5 words it (for comparison
    with `huhiSuppress`, which is the condition the code implements):
    "a root ending in the consonant doubled, or a root whose last two
    characters match a defective/hollow-verb pattern" — the trailing
    consonant of both rules is ه, so: some root ends in هه, or some root's
    last two characters are هي. -/
def specSuppress (roots : List String) : Bool :=
  roots.any (fun r => last2 r.toList = "هه".toList) ||
  roots.any (fun r => last2 r.toList = "هي".toList)

/-- All boundary trace entries of a counts sink have match count 1. -/
def boundaryCountsOne (c : Option (List CountEntry)) : Prop :=
  ∀ l, c = some l → ∀ e ∈ l, e.bound = true → e.cnt = 1

/-! ## Frame lemmas for the engine -/

theorem setTextAt_length (ts : List Token) (i : Nat) (s : String) :
    (setTextAt ts i s).length = ts.length := by
  unfold setTextAt
  cases h : ts[i]? <;> simp

theorem setTextAt_getElem_ne (ts : List Token) (i : Nat) (s : String) (j : Nat)
    (hj : j ≠ i) : (setTextAt ts i s)[j]? = ts[j]? := by
  unfold setTextAt
  cases h : ts[i]? with
  | none => rfl
  | some t => exact List.getElem?_set_ne (fun he => hj he.symm)

theorem setTextAt_ind (ts : List Token) (i : Nat) (s : String) (j : Nat) :
    ((setTextAt ts i s)[j]?).map Token.ind = (ts[j]?).map Token.ind := by
  by_cases hj : j = i
  · subst hj
    unfold setTextAt
    cases h : ts[j]? with
    | none => simp [h]
    | some t => simp only [h, List.getElem?_set_self', h]; rfl
  · rw [setTextAt_getElem_ne ts i s j hj]

theorem boundaryApply_length (rid : String) (b : BoundaryRule) (ind : QIndex)
    (nt i : Nat) (st : EngineState) :
    (boundaryApply rid b ind nt i st).tokens.length = st.tokens.length := by
  unfold boundaryApply
  split <;> dsimp only <;> split <;> simp [setTextAt_length]

theorem boundaryApply_frame (rid : String) (b : BoundaryRule) (ind : QIndex)
    (nt i : Nat) (st : EngineState) (j : Nat) (hj : j ≠ i) (hj2 : j ≠ i + 1) :
    (boundaryApply rid b ind nt i st).tokens[j]? = st.tokens[j]? := by
  unfold boundaryApply
  split <;> dsimp only <;> split <;>
    simp [setTextAt_getElem_ne _ _ _ _ hj, setTextAt_getElem_ne _ _ _ _ hj2]

theorem boundaryApply_ind (rid : String) (b : BoundaryRule) (ind : QIndex)
    (nt i : Nat) (st : EngineState) (j : Nat) :
    ((boundaryApply rid b ind nt i st).tokens[j]?).map Token.ind
      = (st.tokens[j]?).map Token.ind := by
  unfold boundaryApply
  split <;> dsimp only <;> split <;> simp [setTextAt_ind]

theorem intraApply_length (rid : String) (pr : Pat × Tmpl) (ind : QIndex)
    (i : Nat) (st : EngineState) :
    (intraApply rid pr ind i st).tokens.length = st.tokens.length := by
  unfold intraApply
  simp [setTextAt_length]

theorem intraApply_frame (rid : String) (pr : Pat × Tmpl) (ind : QIndex)
    (i : Nat) (st : EngineState) (j : Nat) (hj : j ≠ i) :
    (intraApply rid pr ind i st).tokens[j]? = st.tokens[j]? := by
  unfold intraApply
  simp [setTextAt_getElem_ne _ _ _ _ hj]

theorem intraApply_ind (rid : String) (pr : Pat × Tmpl) (ind : QIndex)
    (i : Nat) (st : EngineState) (j : Nat) :
    ((intraApply rid pr ind i st).tokens[j]?).map Token.ind
      = (st.tokens[j]?).map Token.ind := by
  unfold intraApply
  simp [setTextAt_ind]

theorem ruleApply_length (r : Rule) (ind : QIndex) (nt i : Nat) (st : EngineState) :
    (ruleApply r ind nt i st).tokens.length = st.tokens.length := by
  unfold ruleApply
  split <;> split <;>
    simp [intraApply_length, boundaryApply_length]

theorem ruleApply_frame (r : Rule) (ind : QIndex) (nt i : Nat) (st : EngineState)
    (j : Nat) (hj : j ≠ i) (hj2 : j ≠ i + 1) :
    (ruleApply r ind nt i st).tokens[j]? = st.tokens[j]? := by
  unfold ruleApply
  split <;> split <;>
    simp [intraApply_frame _ _ _ _ _ _ hj, boundaryApply_frame _ _ _ _ _ _ _ hj hj2]

theorem ruleApply_ind (r : Rule) (ind : QIndex) (nt i : Nat) (st : EngineState)
    (j : Nat) :
    ((ruleApply r ind nt i st).tokens[j]?).map Token.ind
      = (st.tokens[j]?).map Token.ind := by
  unfold ruleApply
  split <;> split <;>
    simp [intraApply_ind, boundaryApply_ind]

/-- Inversion for a successful `ruleStep`: either a guard skipped the rule
    (state unchanged) or the rule was applied at the current token's index. -/
theorem ruleStep_ok_cases (qm : QMorf) (w : List Char) (nt : Nat) (r : Rule)
    (i : Nat) (st st' : EngineState)
    (h : ruleStep qm w nt r i st = .ok st') :
    st' = st ∨ ∃ t, st.tokens[i]? = some t ∧ guardSkip r t.ind = false ∧
      st' = ruleApply r t.ind nt i st := by
  unfold ruleStep at h
  split at h
  · injection h with h; exact Or.inl h.symm
  · rename_i t ht
    split at h
    · injection h with h; exact Or.inl h.symm
    · rename_i hg
      split at h
      · exact absurd h (by simp)
      · injection h with h; exact Or.inl h.symm
      · split at h
        · exact absurd h (by simp)
        · injection h with h; exact Or.inl h.symm
        · injection h with h
          exact Or.inr ⟨t, ht, by simp_all, h.symm⟩

theorem ruleStep_ok_length (qm : QMorf) (w : List Char) (nt : Nat) (r : Rule)
    (i : Nat) (st st' : EngineState)
    (h : ruleStep qm w nt r i st = .ok st') :
    st'.tokens.length = st.tokens.length := by
  rcases ruleStep_ok_cases qm w nt r i st st' h with h1 | ⟨t, _, _, h1⟩ <;>
    subst h1 <;> simp [ruleApply_length]

theorem ruleStep_ok_frame (qm : QMorf) (w : List Char) (nt : Nat) (r : Rule)
    (i : Nat) (st st' : EngineState)
    (h : ruleStep qm w nt r i st = .ok st') (j : Nat) (hj : j ≠ i) (hj2 : j ≠ i + 1) :
    st'.tokens[j]? = st.tokens[j]? := by
  rcases ruleStep_ok_cases qm w nt r i st st' h with h1 | ⟨t, _, _, h1⟩ <;>
    subst h1
  · rfl
  · exact ruleApply_frame _ _ _ _ _ _ hj hj2

theorem ruleStep_ok_ind (qm : QMorf) (w : List Char) (nt : Nat) (r : Rule)
    (i : Nat) (st st' : EngineState)
    (h : ruleStep qm w nt r i st = .ok st') (j : Nat) :
    (st'.tokens[j]?).map Token.ind = (st.tokens[j]?).map Token.ind := by
  rcases ruleStep_ok_cases qm w nt r i st st' h with h1 | ⟨t, _, _, h1⟩ <;>
    subst h1
  · rfl
  · exact ruleApply_ind _ _ _ _ _ _

theorem rulesLoop_ok_shape (qm : QMorf) (w : List Char) (nt i : Nat) :
    ∀ (rs : List Rule) (st st' : EngineState),
    rulesLoop qm w nt i rs st = .ok st' →
    st'.tokens.length = st.tokens.length ∧
      ∀ j : Nat, (st'.tokens[j]?).map Token.ind = (st.tokens[j]?).map Token.ind := by
  intro rs
  induction rs with
  | nil =>
    intro st st' h
    injection h with h
    subst h; exact ⟨rfl, fun _ => rfl⟩
  | cons r rs ih =>
    intro st st' h
    unfold rulesLoop at h
    split at h
    · exact absurd h (by simp)
    · rename_i st1 hstep
      obtain ⟨h1, h2⟩ := ih st1 st' h
      refine ⟨h1.trans (ruleStep_ok_length qm w nt r i st st1 hstep), fun j => ?_⟩
      exact (h2 j).trans (ruleStep_ok_ind qm w nt r i st st1 hstep j)

theorem rulesLoop_ok_frame (qm : QMorf) (w : List Char) (nt i : Nat) :
    ∀ (rs : List Rule) (st st' : EngineState),
    rulesLoop qm w nt i rs st = .ok st' →
    ∀ j, j ≠ i → j ≠ i + 1 → st'.tokens[j]? = st.tokens[j]? := by
  intro rs
  induction rs with
  | nil =>
    intro st st' h
    injection h with h
    subst h; exact fun _ _ _ => rfl
  | cons r rs ih =>
    intro st st' h j hj hj2
    unfold rulesLoop at h
    split at h
    · exact absurd h (by simp)
    · rename_i st1 hstep
      exact (ih st1 st' h j hj hj2).trans
        (ruleStep_ok_frame qm w nt r i st st1 hstep j hj hj2)

theorem tokenPass_ok_shape (qm : QMorf) (rasmFn : String → String)
    (rules : List Rule) (nt : Nat) (st st' : EngineState) (i : Nat)
    (h : tokenPass qm rasmFn rules nt st i = .ok st') :
    st'.tokens.length = st.tokens.length ∧
      ∀ j : Nat, (st'.tokens[j]?).map Token.ind = (st.tokens[j]?).map Token.ind :=
  rulesLoop_ok_shape qm _ nt i rules st st' h

theorem tokenPass_frame (qm : QMorf) (rasmFn : String → String)
    (rules : List Rule) (nt : Nat) (st st' : EngineState) (i : Nat)
    (h : tokenPass qm rasmFn rules nt st i = .ok st') :
    ∀ j : Nat, j ≠ i → j ≠ i + 1 → st'.tokens[j]? = st.tokens[j]? :=
  rulesLoop_ok_frame qm _ nt i rules st st' h

theorem tokensLoop_ok_shape (qm : QMorf) (rasmFn : String → String)
    (rules : List Rule) (nt : Nat) :
    ∀ (is : List Nat) (st st' : EngineState),
    tokensLoop qm rasmFn rules nt is st = .ok st' →
    st'.tokens.length = st.tokens.length ∧
      ∀ j : Nat, (st'.tokens[j]?).map Token.ind = (st.tokens[j]?).map Token.ind := by
  intro is
  induction is with
  | nil =>
    intro st st' h
    injection h with h
    subst h; exact ⟨rfl, fun _ => rfl⟩
  | cons i is ih =>
    intro st st' h
    unfold tokensLoop at h
    split at h
    · exact absurd h (by simp)
    · rename_i st1 hstep
      obtain ⟨h1, h2⟩ := ih st1 st' h
      obtain ⟨g1, g2⟩ := tokenPass_ok_shape qm rasmFn rules nt st st1 i hstep
      exact ⟨h1.trans g1, fun j => (h2 j).trans (g2 j)⟩

/-! ## Matcher lemmas: anchored patterns replace at most once -/

theorem pmatch_le (p : Pat) : ∀ (pre s : List Char) (g : Groups) (m : Nat × Groups),
    m ∈ pmatch p pre s g → m.1 ≤ s.length := by
  induction p with
  | eps =>
    intro pre s g m hm
    simp only [pmatch, List.mem_singleton] at hm
    simp [hm]
  | ch c =>
    intro pre s g m hm
    cases s with
    | nil => simp [pmatch] at hm
    | cons c' s' =>
      simp only [pmatch] at hm
      split at hm <;> simp_all
  | any =>
    intro pre s g m hm
    cases s with
    | nil => simp [pmatch] at hm
    | cons c' s' =>
      simp only [pmatch] at hm
      split at hm <;> simp_all
  | cls neg cs =>
    intro pre s g m hm
    cases s with
    | nil => simp [pmatch] at hm
    | cons c' s' =>
      simp only [pmatch] at hm
      split at hm <;> simp_all
  | seq p q ihp ihq =>
    intro pre s g m hm
    simp only [pmatch, List.mem_flatMap, List.mem_map] at hm
    obtain ⟨m1, hm1, m2, hm2, heq⟩ := hm
    have h1 := ihp pre s g m1 hm1
    have h2 := ihq _ (s.drop m1.1) m1.2 m2 hm2
    simp only [List.length_drop] at h2
    rw [← heq]
    simp only []
    omega
  | alt p q ihp ihq =>
    intro pre s g m hm
    simp only [pmatch, List.mem_append] at hm
    rcases hm with hm | hm
    · exact ihp pre s g m hm
    · exact ihq pre s g m hm
  | opt p ihp =>
    intro pre s g m hm
    simp only [pmatch, List.mem_append, List.mem_singleton] at hm
    rcases hm with hm | hm
    · exact ihp pre s g m hm
    · simp [hm]
  | grp n p ihp =>
    intro pre s g m hm
    simp only [pmatch, List.mem_map] at hm
    obtain ⟨m1, hm1, heq⟩ := hm
    have h1 := ihp pre s g m1 hm1
    rw [← heq]
    exact h1
  | look p ihp =>
    intro pre s g m hm
    simp only [pmatch] at hm
    split at hm <;> simp_all
  | nlook p ihp =>
    intro pre s g m hm
    simp only [pmatch] at hm
    split at hm <;> simp_all
  | lbehind neg alts =>
    intro pre s g m hm
    simp only [pmatch] at hm
    split at hm <;> simp_all
  | bos =>
    intro pre s g m hm
    simp only [pmatch] at hm
    split at hm <;> simp_all
  | eos =>
    intro pre s g m hm
    simp only [pmatch] at hm
    split at hm <;> simp_all

theorem pmatch_pos (p : Pat) (hp : nullable p = false) :
    ∀ (pre s : List Char) (g : Groups) (m : Nat × Groups),
    m ∈ pmatch p pre s g → 1 ≤ m.1 := by
  induction p with
  | eps => simp [nullable] at hp
  | ch c =>
    intro pre s g m hm
    cases s with
    | nil => simp [pmatch] at hm
    | cons c' s' =>
      simp only [pmatch] at hm
      split at hm <;> simp_all
  | any =>
    intro pre s g m hm
    cases s with
    | nil => simp [pmatch] at hm
    | cons c' s' =>
      simp only [pmatch] at hm
      split at hm <;> simp_all
  | cls neg cs =>
    intro pre s g m hm
    cases s with
    | nil => simp [pmatch] at hm
    | cons c' s' =>
      simp only [pmatch] at hm
      split at hm <;> simp_all
  | seq p q ihp ihq =>
    intro pre s g m hm
    simp only [pmatch, List.mem_flatMap, List.mem_map] at hm
    obtain ⟨m1, hm1, m2, hm2, heq⟩ := hm
    simp only [nullable, Bool.and_eq_false_iff] at hp
    rcases hp with hp | hp
    · have h1 := ihp hp pre s g m1 hm1
      rw [← heq]; simp only []; omega
    · have h2 := ihq hp _ (s.drop m1.1) m1.2 m2 hm2
      rw [← heq]; simp only []; omega
  | alt p q ihp ihq =>
    intro pre s g m hm
    simp only [nullable, Bool.or_eq_false_iff] at hp
    simp only [pmatch, List.mem_append] at hm
    rcases hm with hm | hm
    · exact ihp hp.1 pre s g m hm
    · exact ihq hp.2 pre s g m hm
  | opt p ihp => simp [nullable] at hp
  | grp n p ihp =>
    intro pre s g m hm
    simp only [pmatch, List.mem_map] at hm
    obtain ⟨m1, hm1, heq⟩ := hm
    have h1 := ihp (by simpa [nullable] using hp) pre s g m1 hm1
    rw [← heq]; exact h1
  | look p ihp => simp [nullable] at hp
  | nlook p ihp => simp [nullable] at hp
  | lbehind neg alts => simp [nullable] at hp
  | bos => simp [nullable] at hp
  | eos => simp [nullable] at hp

/-- A match of an end-anchored pattern consumes the whole remaining
    string. -/
theorem pmatch_seq_eos (p : Pat) (pre s : List Char) (g : Groups)
    (m : Nat × Groups) (hm : m ∈ pmatch (.seq p .eos) pre s g) :
    m.1 = s.length := by
  simp only [pmatch, List.mem_flatMap, List.mem_map] at hm
  obtain ⟨m1, hm1, m2, hm2, heq⟩ := hm
  have h1 := pmatch_le p pre s g m1 hm1
  by_cases hdrop : (s.drop m1.1).isEmpty = true
  · have hlen : s.length - m1.1 = 0 := by
      rw [List.isEmpty_iff] at hdrop
      simpa using congrArg List.length hdrop
    have hm2' : m2.1 = 0 := by
      simp only [pmatch, hdrop, if_true, List.mem_singleton] at hm2
      simp [hm2]
    rw [← heq]
    show m1.1 + m2.1 = s.length
    omega
  · simp only [pmatch, hdrop, if_false] at hm2
    simp at hm2

/-- An end-anchored non-nullable pattern is replaced at most once by the
    scan, whatever the fuel. -/
theorem subnGo_anchored_le_one (p : Pat) (t : Tmpl) (hp : nullable p = false) :
    ∀ (fuel : Nat) (pre s : List Char),
    (subnGo (.seq p .eos) t fuel pre s).2 ≤ 1 := by
  have hnil : ∀ pre' : List Char, pmatch (.seq p .eos) pre' [] [] = [] := by
    intro pre'
    rcases h : pmatch (.seq p .eos) pre' [] [] with _ | ⟨m, l⟩
    · rfl
    · exfalso
      have hm : m ∈ pmatch (.seq p .eos) pre' [] [] := by rw [h]; exact List.mem_cons_self m l
      have h1 := pmatch_pos (.seq p .eos) (by simp [nullable, hp]) pre' [] [] m hm
      have h2 := pmatch_le (.seq p .eos) pre' [] [] m hm
      simp at h2
      omega
  intro fuel
  induction fuel with
  | zero => intro pre s; simp [subnGo]
  | succ fuel ih =>
    intro pre s
    cases s with
    | nil =>
      simp only [subnGo]
      split <;> simp
    | cons c s' =>
      simp only [subnGo]
      rcases hh : (pmatch (.seq p .eos) pre (c :: s') []).head? with _ | m
      · simp only []
        exact ih (c :: pre) s'
      · have hmem : m ∈ pmatch (.seq p .eos) pre (c :: s') [] :=
          List.mem_of_mem_head? (by rw [hh]; rfl)
        have hlen := pmatch_seq_eos p pre (c :: s') [] m hmem
        have hpos : ¬ (m.1 = 0) := by simp [hlen]
        simp only [hpos, if_false]
        have hdrop : (c :: s').drop m.1 = [] := by
          rw [hlen]
          exact List.drop_length (c :: s')
        rw [hdrop]
        cases fuel with
        | zero => simp [subnGo]
        | succ fuel' =>
          simp only [subnGo, hnil]
          simp

/-! ## Counts invariant: boundary entries carry count 1 -/

theorem recordCount_keepsOne (c : Option (List CountEntry)) (rid : String)
    (ind : QIndex) (cnt : Nat) (bound : Bool) (hc : boundaryCountsOne c)
    (hcnt : bound = true → cnt ≤ 1) :
    boundaryCountsOne (recordCount c rid ind cnt bound) := by
  intro l hl e he hb
  cases c with
  | none => simp [recordCount] at hl
  | some l0 =>
    simp only [recordCount] at hl
    split at hl
    · injection hl with hl
      subst hl
      rcases List.mem_append.mp he with he | he
      · exact hc l0 rfl e he hb
      · simp only [List.mem_singleton] at he
        subst he
        simp only [CountEntry.mk.injEq] at hb ⊢
        have h1 := hcnt hb
        rename_i hne
        omega
    · injection hl with hl
      subst hl
      exact hc l0 rfl e he hb

theorem boundaryApply_countsOne (rid : String) (b : BoundaryRule) (ind : QIndex)
    (nt i : Nat) (st : EngineState) (hb : nullable b.pre = false)
    (hc : boundaryCountsOne st.counts) :
    boundaryCountsOne (boundaryApply rid b ind nt i st).counts := by
  unfold boundaryApply
  split <;> dsimp only <;> split
  · exact recordCount_keepsOne _ _ _ _ _ hc
      (fun _ => subnGo_anchored_le_one b.pre b.repl_pre hb _ _ _)
  · exact hc
  · exact recordCount_keepsOne _ _ _ _ _ hc
      (fun _ => subnGo_anchored_le_one b.pre b.repl_pre hb _ _ _)
  · exact hc

theorem intraApply_countsOne (rid : String) (pr : Pat × Tmpl) (ind : QIndex)
    (i : Nat) (st : EngineState) (hc : boundaryCountsOne st.counts) :
    boundaryCountsOne (intraApply rid pr ind i st).counts := by
  unfold intraApply
  exact recordCount_keepsOne _ _ _ _ _ hc (by simp)

theorem ruleApply_countsOne (r : Rule) (ind : QIndex) (nt i : Nat)
    (st : EngineState) (hb : ∀ b, r.boundary = some b → nullable b.pre = false)
    (hc : boundaryCountsOne st.counts) :
    boundaryCountsOne (ruleApply r ind nt i st).counts := by
  unfold ruleApply
  split
  · split
    · exact hc
    · exact intraApply_countsOne _ _ _ _ _ hc
  · rename_i b heq
    split
    · exact boundaryApply_countsOne _ _ _ _ _ _ (hb b heq) hc
    · exact intraApply_countsOne _ _ _ _ _
        (boundaryApply_countsOne _ _ _ _ _ _ (hb b heq) hc)

theorem ruleStep_countsOne (qm : QMorf) (w : List Char) (nt : Nat) (r : Rule)
    (i : Nat) (st st' : EngineState)
    (h : ruleStep qm w nt r i st = .ok st')
    (hb : ∀ b, r.boundary = some b → nullable b.pre = false)
    (hc : boundaryCountsOne st.counts) :
    boundaryCountsOne st'.counts := by
  rcases ruleStep_ok_cases qm w nt r i st st' h with h1 | ⟨t, _, _, h1⟩ <;> subst h1
  · exact hc
  · exact ruleApply_countsOne _ _ _ _ _ hb hc

theorem rulesLoop_countsOne (qm : QMorf) (w : List Char) (nt i : Nat) :
    ∀ (rs : List Rule) (st st' : EngineState),
    rulesLoop qm w nt i rs st = .ok st' →
    (∀ r ∈ rs, ∀ b, r.boundary = some b → nullable b.pre = false) →
    boundaryCountsOne st.counts → boundaryCountsOne st'.counts := by
  intro rs
  induction rs with
  | nil =>
    intro st st' h _ hc
    injection h with h
    subst h; exact hc
  | cons r rs ih =>
    intro st st' h hb hc
    unfold rulesLoop at h
    split at h
    · exact absurd h (by simp)
    · rename_i st1 hstep
      exact ih st1 st' h (fun r' hr' => hb r' (List.mem_cons_of_mem r hr'))
        (ruleStep_countsOne qm w nt r i st st1 hstep
          (hb r (List.mem_cons_self r rs)) hc)

theorem tokensLoop_countsOne (qm : QMorf) (rasmFn : String → String)
    (rules : List Rule) (nt : Nat)
    (hb : ∀ r ∈ rules, ∀ b, r.boundary = some b → nullable b.pre = false) :
    ∀ (is : List Nat) (st st' : EngineState),
    tokensLoop qm rasmFn rules nt is st = .ok st' →
    boundaryCountsOne st.counts → boundaryCountsOne st'.counts := by
  intro is
  induction is with
  | nil =>
    intro st st' h hc
    injection h with h
    subst h; exact hc
  | cons i is ih =>
    intro st st' h hc
    unfold tokensLoop at h
    split at h
    · exact absurd h (by simp)
    · rename_i st1 hstep
      exact ih st1 st' h
        (rulesLoop_countsOne qm _ nt i rules st st1 hstep hb hc)

/-! ## Lookup-error lemmas -/

theorem posFilterSkip_error_ind (qm : QMorf) (r : Rule) (ind : QIndex) (e : QIndex)
    (h : posFilterSkip qm r ind = .error e) : e = ind := by
  unfold posFilterSkip at h
  split at h
  · simp at h
  · split at h
    · injection h with h; exact h.symm
    · simp at h

theorem clitSkip_error_ind (qm : QMorf) (w : List Char) (r : Rule) (ind : QIndex)
    (e : QIndex) (h : clitSkip qm w r ind = .error e) : e = ind := by
  unfold clitSkip at h
  split at h
  · split at h
    · injection h with h; exact h.symm
    · simp at h
  · simp at h

theorem ruleStep_error_ind (qm : QMorf) (w : List Char) (nt : Nat) (r : Rule)
    (i : Nat) (st : EngineState) (e : QIndex)
    (h : ruleStep qm w nt r i st = .error e) :
    ∃ t, st.tokens[i]? = some t ∧ e = t.ind := by
  unfold ruleStep at h
  split at h
  · simp at h
  · rename_i t ht
    split at h
    · simp at h
    · split at h
      · rename_i e' heq
        injection h with h
        subst h
        exact ⟨t, ht, posFilterSkip_error_ind qm r t.ind e' heq⟩
      · simp at h
      · split at h
        · rename_i e' heq
          injection h with h
          subst h
          exact ⟨t, ht, clitSkip_error_ind qm w r t.ind e' heq⟩
        · simp at h
        · simp at h

theorem posFilterSkip_ok_of_some (qm : QMorf) (r : Rule) (ind : QIndex)
    (hq : (qm ind).isSome) : ∃ b, posFilterSkip qm r ind = .ok b := by
  unfold posFilterSkip
  split
  · exact ⟨false, rfl⟩
  · rename_i fp hfp
    cases hqm : qm ind with
    | none => rw [hqm] at hq; simp at hq
    | some m =>
      refine ⟨!m.pos.contains fp, ?_⟩
      simp [hqm]

theorem clitSkip_ok_of_some (qm : QMorf) (w : List Char) (r : Rule) (ind : QIndex)
    (hq : (qm ind).isSome) : ∃ b, clitSkip qm w r ind = .ok b := by
  unfold clitSkip
  split
  · cases hqm : qm ind with
    | none => rw [hqm] at hq; simp at hq
    | some m =>
      refine ⟨huhiSuppress m.roots w, ?_⟩
      simp [hqm]
  · exact ⟨false, rfl⟩

theorem ruleStep_ok_of_some (qm : QMorf) (w : List Char) (nt : Nat) (r : Rule)
    (i : Nat) (st : EngineState)
    (hq : ∀ t, st.tokens[i]? = some t → (qm t.ind).isSome) :
    ∃ st', ruleStep qm w nt r i st = .ok st' := by
  unfold ruleStep
  cases hti : st.tokens[i]? with
  | none => exact ⟨st, rfl⟩
  | some t =>
    obtain ⟨b1, hb1⟩ := posFilterSkip_ok_of_some qm r t.ind (hq t hti)
    obtain ⟨b2, hb2⟩ := clitSkip_ok_of_some qm w r t.ind (hq t hti)
    by_cases hg : guardSkip r t.ind = true
    · simp only [hg, if_true]
      exact ⟨st, rfl⟩
    · simp only [Bool.not_eq_true] at hg
      simp only [hg, Bool.false_eq_true, if_false, hb1, hb2]
      cases b1 <;> cases b2 <;> exact ⟨_, rfl⟩

theorem rulesLoop_ok_of_some (qm : QMorf) (w : List Char) (nt i : Nat) :
    ∀ (rs : List Rule) (st : EngineState),
    (∀ t, st.tokens[i]? = some t → (qm t.ind).isSome) →
    ∃ st', rulesLoop qm w nt i rs st = .ok st' := by
  intro rs
  induction rs with
  | nil => intro st _; exact ⟨st, rfl⟩
  | cons r rs ih =>
    intro st h
    obtain ⟨st1, h1⟩ := ruleStep_ok_of_some qm w nt r i st h
    have h2 : ∀ t, st1.tokens[i]? = some t → (qm t.ind).isSome := by
      intro t ht
      have hind := ruleStep_ok_ind qm w nt r i st st1 h1 i
      rw [ht] at hind
      cases hti : st.tokens[i]? with
      | none => rw [hti] at hind; simp at hind
      | some t0 =>
        rw [hti] at hind
        simp only [Option.map_some'] at hind
        injection hind with hind
        rw [hind]
        exact h t0 hti
    obtain ⟨st2, hrest⟩ := ih st1 h2
    refine ⟨st2, ?_⟩
    unfold rulesLoop
    rw [h1]
    exact hrest

theorem rulesLoop_error_of_missing (qm : QMorf) (w : List Char) (nt i : Nat) :
    ∀ (rs : List Rule) (st : EngineState) (t : Token),
    st.tokens[i]? = some t → qm t.ind = none →
    (∃ r ∈ rs, r.filter_pos.isSome = true ∧ r.restrict_ind = [] ∧ r.except_ind = []) →
    rulesLoop qm w nt i rs st = .error t.ind := by
  intro rs
  induction rs with
  | nil =>
    intro st t ht hq hex
    simp at hex
  | cons r rs ih =>
    intro st t ht hq hex
    cases hstep : ruleStep qm w nt r i st with
    | error e =>
      obtain ⟨t', ht', he⟩ := ruleStep_error_ind qm w nt r i st e hstep
      rw [ht] at ht'
      injection ht' with ht'
      unfold rulesLoop
      rw [hstep, he, ht']
    | ok st1 =>
      rcases hex with ⟨r0, hr0mem, hr0⟩
      rcases List.mem_cons.mp hr0mem with heq | hmem
      · exfalso
        subst heq
        have herr : ruleStep qm w nt r0 i st = .error t.ind := by
          unfold ruleStep
          simp only [ht]
          have hg : guardSkip r0 t.ind = false := by
            simp [guardSkip, hr0.2.1, hr0.2.2]
          simp only [hg, Bool.false_eq_true, if_false]
          have hpf : posFilterSkip qm r0 t.ind = .error t.ind := by
            unfold posFilterSkip
            cases hfp : r0.filter_pos with
            | none => rw [hfp] at hr0; simp at hr0
            | some fp => rw [hq]
          rw [hpf]
        rw [herr] at hstep
        exact absurd hstep (by simp)
      · obtain ⟨t1, ht1, hind⟩ : ∃ t1, st1.tokens[i]? = some t1 ∧ t1.ind = t.ind := by
          have hi := ruleStep_ok_ind qm w nt r i st st1 hstep i
          rw [ht] at hi
          cases h1 : st1.tokens[i]? with
          | none => rw [h1] at hi; simp at hi
          | some t1 =>
            rw [h1] at hi
            simp only [Option.map_some'] at hi
            injection hi with hi
            exact ⟨t1, rfl, hi⟩
        unfold rulesLoop
        rw [hstep]
        show rulesLoop qm w nt i rs st1 = Except.error t.ind
        have := ih st1 t1 ht1 (by rw [hind]; exact hq) ⟨r0, hmem, hr0⟩
        rw [this, hind]

theorem tokensLoop_append (qm : QMorf) (rasmFn : String → String)
    (rules : List Rule) (nt : Nat) :
    ∀ (is1 is2 : List Nat) (st : EngineState),
    tokensLoop qm rasmFn rules nt (is1 ++ is2) st
      = match tokensLoop qm rasmFn rules nt is1 st with
        | .ok st1 => tokensLoop qm rasmFn rules nt is2 st1
        | .error e => .error e := by
  intro is1
  induction is1 with
  | nil => intro is2 st; rfl
  | cons i is1 ih =>
    intro is2 st
    cases h : tokenPass qm rasmFn rules nt st i with
    | error e => simp [tokensLoop, h]
    | ok st1 =>
      simp only [List.cons_append, tokensLoop, h]
      exact ih is2 st1

theorem tokensLoop_ok_of_present (qm : QMorf) (rasmFn : String → String)
    (rules : List Rule) (nt : Nat) (tokens : List Token) :
    ∀ (is : List Nat) (st : EngineState),
    (∀ j : Nat, (st.tokens[j]?).map Token.ind = (tokens[j]?).map Token.ind) →
    (∀ j ∈ is, ∀ u, tokens[j]? = some u → (qm u.ind).isSome) →
    ∃ st', tokensLoop qm rasmFn rules nt is st = .ok st' ∧
      ∀ j : Nat, (st'.tokens[j]?).map Token.ind = (tokens[j]?).map Token.ind := by
  intro is
  induction is with
  | nil => intro st hsh _; exact ⟨st, rfl, hsh⟩
  | cons i is ih =>
    intro st hsh hpres
    have hpi : ∀ t, st.tokens[i]? = some t → (qm t.ind).isSome := by
      intro t ht
      have hi := hsh i
      rw [ht] at hi
      cases hti : tokens[i]? with
      | none => rw [hti] at hi; simp at hi
      | some u =>
        rw [hti] at hi
        simp only [Option.map_some'] at hi
        injection hi with hi
        rw [hi]
        exact hpres i (List.mem_cons_self i is) u hti
    obtain ⟨st1, h1⟩ := rulesLoop_ok_of_some qm
      (rasmFn (getText st.tokens i)).toList nt i rules st hpi
    have hsh1 : ∀ j : Nat, (st1.tokens[j]?).map Token.ind = (tokens[j]?).map Token.ind := by
      intro j
      exact ((rulesLoop_ok_shape qm _ nt i rules st st1 h1).2 j).trans (hsh j)
    obtain ⟨st', h2, hsh'⟩ := ih st1 hsh1
      (fun j hj => hpres j (List.mem_cons_of_mem i hj))
    refine ⟨st', ?_, hsh'⟩
    unfold tokensLoop
    rw [show tokenPass qm rasmFn rules nt st i = .ok st1 from h1]
    exact h2

theorem range_split (n k : Nat) (hk : k < n) :
    ∃ tl, List.range n = List.range k ++ k :: tl := by
  have h1 : List.range n = List.range k ++ (List.range (n - k)).map (k + ·) := by
    rw [← List.range_add]
    congr 1
    omega
  have h2 : n - k = (n - k - 1) + 1 := by omega
  rw [h1, h2, List.range_succ_eq_map]
  refine ⟨(List.map Nat.succ (List.range (n - k - 1))).map (k + ·), ?_⟩
  simp

/-- A full pass over rules that include at least one rule with a POS
    filter and no index restriction/exception aborts with a lookup error
    at the first token whose index is absent from the morphological
    table. -/
theorem apply_rules_error_of_missing (tokens : List Token) (rules : List Rule)
    (qm : QMorf) (counts : Option (List CountEntry)) (rasmFn : String → String)
    (k : Nat) (t : Token)
    (ht : tokens[k]? = some t) (hq : qm t.ind = none)
    (hbefore : ∀ j : Nat, j < k → ∀ u, tokens[j]? = some u → (qm u.ind).isSome)
    (hex : ∃ r ∈ rules, r.filter_pos.isSome = true ∧ r.restrict_ind = [] ∧ r.except_ind = []) :
    apply_rules tokens rules qm counts rasmFn = .error t.ind := by
  have hk : k < tokens.length := by
    by_contra hcon
    rw [List.getElem?_eq_none (by omega)] at ht
    simp at ht
  obtain ⟨tl, hrange⟩ := range_split tokens.length k hk
  show tokensLoop qm rasmFn rules tokens.length (List.range tokens.length)
      (EngineState.mk tokens counts) = .error t.ind
  rw [hrange, tokensLoop_append]
  obtain ⟨st1, h1, hsh1⟩ := tokensLoop_ok_of_present qm rasmFn rules tokens.length
    tokens (List.range k) (EngineState.mk tokens counts)
    (fun _ => rfl)
    (fun j hj u hu => hbefore j (List.mem_range.mp hj) u hu)
  rw [h1]
  obtain ⟨t1, ht1, hind⟩ : ∃ t1, st1.tokens[k]? = some t1 ∧ t1.ind = t.ind := by
    have hi := hsh1 k
    rw [ht] at hi
    cases h2 : st1.tokens[k]? with
    | none => rw [h2] at hi; simp at hi
    | some t1 =>
      rw [h2] at hi
      simp only [Option.map_some'] at hi
      injection hi with hi
      exact ⟨t1, rfl, hi⟩
  show tokensLoop qm rasmFn rules tokens.length (k :: tl) st1 = Except.error t.ind
  have herr : tokenPass qm rasmFn rules tokens.length st1 k = .error t.ind := by
    have := rulesLoop_error_of_missing qm (rasmFn (getText st1.tokens k)).toList
      tokens.length k rules st1 t1 ht1 (by rw [hind]; exact hq) hex
    rw [show tokenPass qm rasmFn rules tokens.length st1 k
        = rulesLoop qm (rasmFn (getText st1.tokens k)).toList tokens.length k rules st1
        from rfl, this, hind]
  simp only [tokensLoop, herr]

theorem ruleApply_frame_of_boundary_none (r : Rule) (ind : QIndex) (nt i : Nat)
    (st : EngineState) (j : Nat) (hb : r.boundary = none) (hj : j ≠ i) :
    (ruleApply r ind nt i st).tokens[j]? = st.tokens[j]? := by
  unfold ruleApply
  rw [hb]
  dsimp only
  split
  · rfl
  · exact intraApply_frame _ _ _ _ _ _ hj

/-! ## Single-literal boundary pattern lemmas (for rule M1) -/

theorem searchGo_ch_eos (c : Char) :
    ∀ (l pre : List Char), l.getLast? = some c →
    searchGo (.seq (.ch c) .eos) pre l = true := by
  intro l
  induction l with
  | nil => intro pre h; simp at h
  | cons a l ih =>
    intro pre h
    cases l with
    | nil =>
      simp only [List.getLast?_singleton, Option.some.injEq] at h
      subst h
      simp [searchGo, pmatch]
    | cons b l2 =>
      have h' : (b :: l2).getLast? = some c := by
        rw [List.getLast?_cons_cons] at h
        exact h
      show (!(pmatch (.seq (.ch c) .eos) pre (a :: b :: l2) []).isEmpty
          || searchGo (.seq (.ch c) .eos) (a :: pre) (b :: l2)) = true
      rw [ih (a :: pre) h']
      simp

theorem subnGo_ch_eos (c : Char) (t : Tmpl) :
    ∀ (fuel : Nat) (l pre : List Char), l.length < fuel → l.getLast? = some c →
    subnGo (.seq (.ch c) .eos) t fuel pre l = (l.dropLast ++ expandT t [], 1) := by
  intro fuel
  induction fuel with
  | zero => intro l pre h _; omega
  | succ fuel ih =>
    intro l pre hlen hlast
    cases l with
    | nil => simp at hlast
    | cons a l2 =>
      cases l2 with
      | nil =>
        simp only [List.getLast?_singleton, Option.some.injEq] at hlast
        subst hlast
        cases fuel with
        | zero => simp at hlen
        | succ fuel' =>
          simp [subnGo, pmatch]
      | cons b l3 =>
        have hpm : pmatch (.seq (.ch c) .eos) pre (a :: b :: l3) [] = [] := by
          by_cases hac : a = c <;> simp [pmatch, hac]
        have h' : (b :: l3).getLast? = some c := by
          rw [List.getLast?_cons_cons] at hlast
          exact hlast
        have hlen' : (b :: l3).length < fuel := by
          simp only [List.length_cons] at hlen ⊢
          omega
        simp only [subnGo, hpm, List.head?_nil]
        rw [ih (b :: l3) (a :: pre) hlen' h']
        simp

theorem subnGo_bos_pre_ne (p : Pat) (t : Tmpl) :
    ∀ (fuel : Nat) (l pre : List Char), pre ≠ [] →
    subnGo (.seq .bos p) t fuel pre l = (l, 0) := by
  intro fuel
  induction fuel with
  | zero => intro l pre _; simp [subnGo]
  | succ fuel ih =>
    intro l pre h
    have hpm : pmatch (.seq .bos p) pre l [] = [] := by
      simp [pmatch, h]
    cases l with
    | nil => simp [subnGo, hpm]
    | cons a l2 =>
      simp only [subnGo, hpm, List.head?_nil]
      rw [ih l2 (a :: pre) (by simp)]

theorem searchEnd_ch_last (c : Char) (s : String) (h : s.toList.getLast? = some c) :
    searchEnd (.ch c) s = true :=
  searchGo_ch_eos c s.toList [] h

theorem subnEnd_ch_last (c : Char) (t : Tmpl) (s : String)
    (h : s.toList.getLast? = some c) :
    subnEnd (.ch c) t s = (String.mk (s.toList.dropLast ++ expandT t []), 1) := by
  unfold subnEnd subnP
  rw [subnGo_ch_eos c t (s.toList.length + 1) s.toList [] (by omega) h]

theorem searchStart_ch_head (c : Char) (s : String) (h : s.toList.head? = some c) :
    searchStart (.ch c) s = true := by
  unfold searchStart searchP
  cases hl : s.toList with
  | nil => rw [hl] at h; simp at h
  | cons a rest =>
    rw [hl] at h
    simp only [List.head?_cons, Option.some.injEq] at h
    subst h
    simp [searchGo, pmatch]

theorem subnGo_bos_ch (a : Char) (t : Tmpl) (fuel : Nat) (rest : List Char) :
    subnGo (.seq .bos (.ch a)) t (fuel + 1) [] (a :: rest) = (expandT t [] ++ rest, 1) := by
  have hpm : pmatch (.seq .bos (.ch a)) [] (a :: rest) [] = [(1, [])] := by
    simp [pmatch]
  show (match (pmatch (.seq .bos (.ch a)) [] (a :: rest) []).head? with
    | some m =>
      if m.1 = 0 then
        let r := subnGo (.seq .bos (.ch a)) t fuel (a :: []) rest
        (expandT t m.2 ++ a :: r.1, r.2 + 1)
      else
        let r := subnGo (.seq .bos (.ch a)) t fuel
          (((a :: rest).take m.1).reverse ++ []) ((a :: rest).drop m.1)
        (expandT t m.2 ++ r.1, r.2 + 1)
    | none =>
      let r := subnGo (.seq .bos (.ch a)) t fuel (a :: []) rest
      (a :: r.1, r.2)) = (expandT t [] ++ rest, 1)
  rw [hpm]
  simp only [List.head?_cons, List.take_succ_cons, List.take_zero, List.reverse_cons,
    List.reverse_nil, List.nil_append, List.drop_succ_cons, List.drop_zero, List.append_nil]
  rw [subnGo_bos_pre_ne (.ch a) t fuel rest [a] (by simp)]
  simp

theorem subStart_ch_head (c : Char) (s0 : String) (s : String)
    (hs0 : s0.toList = [c]) (h : s.toList.head? = some c) :
    subStart (.ch c) [Tpl.lit s0] s = s := by
  unfold subStart subnP
  cases hl : s.toList with
  | nil => rw [hl] at h; simp at h
  | cons a rest =>
    rw [hl] at h
    simp only [List.head?_cons, Option.some.injEq] at h
    subst h
    simp only [hl, List.length_cons]
    rw [subnGo_bos_ch a [Tpl.lit s0] (rest.length + 1) rest]
    simp only [expandT, List.foldr, hs0]
    show String.mk (a :: rest) = s
    rw [← hl]
    rfl

theorem setTextAt_get_self (ts : List Token) (i : Nat) (s : String) (t : Token)
    (h : ts[i]? = some t) : (setTextAt ts i s)[i]? = some (Token.mk s t.ind) := by
  unfold setTextAt
  rw [h, List.getElem?_set_self', h]
  rfl

/-! ## Claim C9 -/

/-- Claim C9: frame property of the engine.  For every input on which the
    pass completes, `apply_rules` changes only the text field of tokens:
    the length of the token list and every token's (sura, verse, word)
    index (hence the document order) are the same before and after the
    pass; and while processing position `i`, only the tokens at positions
    `i` and `i+1` are ever written. -/
theorem apply_rules_frame_property :
    (∀ (tokens : List Token) (rules : List Rule) (qm : QMorf)
        (counts : Option (List CountEntry)) (rasmFn : String → String)
        (st' : EngineState),
      apply_rules tokens rules qm counts rasmFn = .ok st' →
      st'.tokens.length = tokens.length ∧
        ∀ j : Nat, (st'.tokens[j]?).map Token.ind = (tokens[j]?).map Token.ind)
    ∧
    (∀ (qm : QMorf) (rasmFn : String → String) (rules : List Rule)
        (nt : Nat) (st st' : EngineState) (i : Nat),
      tokenPass qm rasmFn rules nt st i = .ok st' →
      ∀ j : Nat, j ≠ i → j ≠ i + 1 → st'.tokens[j]? = st.tokens[j]?) := by
  constructor
  · intro tokens rules qm counts rasmFn st' h
    exact tokensLoop_ok_shape qm rasmFn rules tokens.length
      (List.range tokens.length) (EngineState.mk tokens counts) st' h
  · intro qm rasmFn rules nt st st' i h j hj hj2
    exact tokenPass_frame qm rasmFn rules nt st st' i h j hj hj2

/-- Witness for C9: the frame property evaluated on a concrete two-token
    run of rule M1. -/
theorem apply_rules_frame_property_witness :
    ((EngineState.mk [Token.mk "مۡ" (23,59,2), Token.mk "بِهِ" (23,59,3)] none).tokens.length
        = [Token.mk "م" (23,59,2), Token.mk "بِهِ" (23,59,3)].length ∧
      ∀ j : Nat,
        (((EngineState.mk [Token.mk "مۡ" (23,59,2), Token.mk "بِهِ" (23,59,3)] none).tokens[j]?).map Token.ind)
          = (([Token.mk "م" (23,59,2), Token.mk "بِهِ" (23,59,3)] : List Token)[j]?).map Token.ind) := by
  have h := apply_rules_frame_property.1
    [Token.mk "م" (23,59,2), Token.mk "بِهِ" (23,59,3)] [ruleM1] (fun _ => none) none id
    (EngineState.mk [Token.mk "مۡ" (23,59,2), Token.mk "بِهِ" (23,59,3)] none) (by decide)
  exact h

/-! ## Claim C10 -/

set_option maxRecDepth 4096 in
/-- Claim C10: every boundary trace entry has match count exactly 1.  The
    pre-anchor pattern is applied anchored at the end of token `i`'s text
    and no `TOK_PRE` pattern of either table is nullable, so the
    substitution performs at most one replacement, and an entry is recorded
    only when the count is non-zero; hence every `(index, cnt, true)`
    entry recorded into a counts sink has `cnt = 1`.  The second conjunct
    checks the non-nullability of every boundary pre-pattern of the two
    rule tables. -/
theorem boundary_trace_count_one :
    (∀ (tokens : List Token) (rules : List Rule) (qm : QMorf)
        (rasmFn : String → String) (st' : EngineState),
      (∀ r ∈ rules, ∀ b, r.boundary = some b → nullable b.pre = false) →
      apply_rules tokens rules qm (some []) rasmFn = .ok st' →
      ∀ l, st'.counts = some l → ∀ e ∈ l, e.bound = true → e.cnt = 1)
    ∧
    (∀ r ∈ REMOVE_SANDHI_RULES ++ RESTORE_SANDHI_RULES,
      ∀ b, r.boundary = some b → nullable b.pre = false) := by
  constructor
  · intro tokens rules qm rasmFn st' hb h l hl e he hbound
    have hinv : boundaryCountsOne (EngineState.mk tokens (some [])).counts := by
      intro l0 hl0 e0 he0 _
      injection hl0 with hl0
      subst hl0
      simp at he0
    exact tokensLoop_countsOne qm rasmFn rules tokens.length hb
      (List.range tokens.length) (EngineState.mk tokens (some [])) st' h hinv l hl e he hbound
  · decide

/-- Witness for C10: a concrete run of rule M1 over two tokens records the
    single boundary entry `("M1", (23,59,2), 1, true)`. -/
theorem boundary_trace_count_one_witness :
    ∀ e ∈ [CountEntry.mk "M1" (23,59,2) 1 true], e.bound = true → e.cnt = 1 :=
  boundary_trace_count_one.1
    [Token.mk "م" (23,59,2), Token.mk "ب" (23,59,3)] [ruleM1] (fun _ => none) id
    (EngineState.mk [Token.mk "مۡ" (23,59,2), Token.mk "ب" (23,59,3)]
      (some [CountEntry.mk "M1" (23,59,2) 1 true]))
    (by decide) (by decide) _ rfl

/-! ## Claim C4 -/

/-- Claim C4: literal case for Removal rule M1.  At any position `i` where
    token `i`'s text ends with م and token `i+1`'s text begins with ب,
    applying rule M1 (the head of `REMOVE_SANDHI_RULES`) rewrites token `i`
    to its text with the final م replaced by مۡ (mīm + sukūn) — so it ends
    with مۡ — and leaves token `i+1`'s text unchanged (`REPL_POST` is the
    identity replacement ب → ب). -/
theorem rule_M1_literal_case :
    REMOVE_SANDHI_RULES[0]? = some ruleM1 ∧
    ∀ (qm : QMorf) (w : List Char) (nt i : Nat) (st : EngineState) (t u : Token),
    st.tokens[i]? = some t → st.tokens[i+1]? = some u →
    i < nt - 1 →
    t.text.toList.getLast? = some 'م' → u.text.toList.head? = some 'ب' →
    ∃ st', ruleStep qm w nt ruleM1 i st = .ok st' ∧
      (st'.tokens[i]?).map Token.text
        = some (String.mk (t.text.toList.dropLast ++ "مۡ".toList)) ∧
      st'.tokens[i+1]? = some u := by
  refine ⟨rfl, ?_⟩
  intro qm w nt i st t u ht hu hlt hlast hhead
  have hgi : getText st.tokens i = t.text := by
    unfold getText
    rw [ht]
  have hgi1 : getText st.tokens (i+1) = u.text := by
    unfold getText
    rw [hu]
  have hstep : ruleStep qm w nt ruleM1 i st = .ok (ruleApply ruleM1 t.ind nt i st) := by
    unfold ruleStep
    rw [ht]
    rfl
  have hcond : (decide (i < nt - 1) && searchEnd (Pat.ch 'م') (getText st.tokens i)
      && searchStart (Pat.ch 'ب') (getText st.tokens (i+1))) = true := by
    rw [hgi, hgi1, searchEnd_ch_last 'م' t.text hlast, searchStart_ch_head 'ب' u.text hhead]
    simp [hlt]
  have happ : ruleApply ruleM1 t.ind nt i st = EngineState.mk
      (setTextAt (setTextAt st.tokens (i+1)
          (subStart (.ch 'ب') [Tpl.lit "ب"] (getText st.tokens (i+1)))) i
        (subnEnd (.ch 'م') [Tpl.lit "مۡ"] (getText st.tokens i)).1)
      (recordCount st.counts "M1" t.ind
        (subnEnd (.ch 'م') [Tpl.lit "مۡ"] (getText st.tokens i)).2 true) := by
    show boundaryApply "M1" (BoundaryRule.mk (.ch 'م') (.ch 'ب') [Tpl.lit "مۡ"]
        (some [Tpl.lit "ب"])) t.ind nt i st = _
    unfold boundaryApply
    dsimp only
    rw [hcond]
    simp only [if_true]
  refine ⟨ruleApply ruleM1 t.ind nt i st, hstep, ?_, ?_⟩
  · rw [happ]
    have h1 : (setTextAt st.tokens (i+1)
        (subStart (.ch 'ب') [Tpl.lit "ب"] (getText st.tokens (i+1))))[i]? = some t := by
      rw [setTextAt_getElem_ne st.tokens (i+1) _ i (by omega)]
      exact ht
    rw [setTextAt_get_self _ i _ t h1]
    rw [hgi, subnEnd_ch_last 'م' [Tpl.lit "مۡ"] t.text hlast]
    rfl
  · rw [happ]
    show (setTextAt (setTextAt st.tokens (i+1)
        (subStart (.ch 'ب') [Tpl.lit "ب"] (getText st.tokens (i+1)))) i _)[i+1]? = some u
    rw [setTextAt_getElem_ne _ i _ (i+1) (by omega)]
    rw [hgi1, subStart_ch_head 'ب' "ب" u.text rfl hhead]
    rw [setTextAt_get_self st.tokens (i+1) u.text u hu]

/-- Witness for C4: the documented case — a token ending in م at index
    (23,59,2) followed by a token beginning with ب at (23,59,3). -/
theorem rule_M1_literal_case_witness :
    ∃ st', ruleStep (fun _ => none) [] 2 ruleM1 0
        (EngineState.mk [Token.mk "لَهُم" (23,59,2), Token.mk "بِٱلۡءَاخِرَةِ" (23,59,3)] none)
      = .ok st' ∧
      (st'.tokens[0]?).map Token.text
        = some (String.mk ("لَهُم".toList.dropLast ++ "مۡ".toList)) ∧
      st'.tokens[0+1]? = some (Token.mk "بِٱلۡءَاخِرَةِ" (23,59,3)) :=
  rule_M1_literal_case.2 (fun _ => none) [] 2 0
    (EngineState.mk [Token.mk "لَهُم" (23,59,2), Token.mk "بِٱلۡءَاخِرَةِ" (23,59,3)] none)
    (Token.mk "لَهُم" (23,59,2)) (Token.mk "بِٱلۡءَاخِرَةِ" (23,59,3))
    rfl rfl (by omega) (by decide) (by decide)

/-! ## Claim C5 -/

/-- Counterexample for C5 as stated.  The claim describes the suppression
    condition as "the trailing consonant belongs to the lexical root (a
    root ending in the consonant doubled, or a root whose last two
    characters match a defective/hollow-verb pattern)" (`specSuppress`).
    The code (`huhiSuppress`) instead suppresses when some root ends in a
    single ه (not doubled) while the wordform's rasm does not end in هه.
    With roots `["نبهه"]` (ending in doubled ه) and wordform rasm بهه the
    spec condition says suppress, but the engine fires rule HU and mutates
    the token. -/
theorem hu_suppression_not_as_spec_described :
    specSuppress ["نبهه"] = true ∧
    huhiSuppress ["نبهه"] "بهه".toList = false ∧
    ruleStep
        (fun ind => if ind = (1,1,1) then some (MorphRec.mk "" [] [] ["نبهه"] []) else none)
        "بهه".toList 2 ruleHU 0
        (EngineState.mk [Token.mk "بِهُۥ" (1,1,1), Token.mk "مِن" (1,1,2)] none)
      = .ok (EngineState.mk [Token.mk "بِهُ" (1,1,1), Token.mk "مِن" (1,1,2)] none) ∧
    Token.mk "بِهُ" (1,1,1) ≠ Token.mk "بِهُۥ" (1,1,1) := by
  exact ⟨by decide, by decide, by decide, by decide⟩

set_option maxRecDepth 4096 in
/-- Claim C5 (amended).  Exactly for the two rules HU and HI, when the
    current token's index is not in the rule's `FORCE_INDEXES` set,
    `apply_rules` suppresses the rule whenever the morphological record
    satisfies `huhiSuppress`: some root ends in the consonant ه, or some
    root's last two characters are the defective pattern هي, and in either
    branch the wordform's rasm does not end in the consonant doubled (هه).
    An index in `FORCE_INDEXES` overrides the suppression and lets the
    rule fire; for any rule whose id is neither HU nor HI the suppression
    test is a no-op; and the two tables contain exactly the four rules
    (two per direction) with id HU or HI. -/
theorem hu_hi_suppression_amended :
    (∀ (qm : QMorf) (w : List Char) (nt : Nat) (r : Rule) (i : Nat)
        (st : EngineState) (t : Token) (m : MorphRec),
      (r.id = "HU" ∨ r.id = "HI") →
      st.tokens[i]? = some t →
      guardSkip r t.ind = false →
      r.filter_pos = none →
      r.force_ind.contains t.ind = false →
      qm t.ind = some m →
      huhiSuppress m.roots w = true →
      ruleStep qm w nt r i st = .ok st)
    ∧
    (∀ (qm : QMorf) (w : List Char) (nt : Nat) (r : Rule) (i : Nat)
        (st : EngineState) (t : Token),
      st.tokens[i]? = some t →
      guardSkip r t.ind = false →
      r.filter_pos = none →
      r.force_ind.contains t.ind = true →
      ruleStep qm w nt r i st = .ok (ruleApply r t.ind nt i st))
    ∧
    (∀ (qm : QMorf) (w : List Char) (r : Rule) (ind : QIndex),
      r.id ≠ "HU" → r.id ≠ "HI" → clitSkip qm w r ind = .ok false)
    ∧
    ((REMOVE_SANDHI_RULES ++ RESTORE_SANDHI_RULES).filter
        (fun r => r.id = "HU" || r.id = "HI")).length = 4 := by
  refine ⟨?_, ?_, ?_, by decide⟩
  · intro qm w nt r i st t m hid ht hg hfp hforce hq hsup
    have hpf : posFilterSkip qm r t.ind = .ok false := by
      unfold posFilterSkip
      rw [hfp]
    have hcl : clitSkip qm w r t.ind = .ok true := by
      unfold clitSkip
      have hcond : (!r.force_ind.contains t.ind && (r.id = "HU" || r.id = "HI")) = true := by
        rw [hforce]
        rcases hid with hid | hid <;> rw [hid] <;> rfl
      rw [if_pos hcond, hq]
      show (Except.ok (huhiSuppress m.roots w) : Except QIndex Bool) = .ok true
      rw [hsup]
    unfold ruleStep
    rw [ht]
    simp only [hg, Bool.false_eq_true, if_false, hpf, hcl]
  · intro qm w nt r i st t ht hg hfp hforce
    have hpf : posFilterSkip qm r t.ind = .ok false := by
      unfold posFilterSkip
      rw [hfp]
    have hcl : clitSkip qm w r t.ind = .ok false := by
      unfold clitSkip
      have hcond : (!r.force_ind.contains t.ind && (r.id = "HU" || r.id = "HI")) = false := by
        rw [hforce]
        rfl
      have hnot : ¬ ((!r.force_ind.contains t.ind && (r.id = "HU" || r.id = "HI")) = true) := by
        intro hcc
        rw [hcond] at hcc
        exact absurd hcc (by simp)
      rw [if_neg hnot]
    unfold ruleStep
    rw [ht]
    simp only [hg, Bool.false_eq_true, if_false, hpf, hcl]
  · intro qm w r ind h1 h2
    unfold clitSkip
    have hcond : (!r.force_ind.contains ind && (r.id = "HU" || r.id = "HI")) = false := by
      simp [h1, h2]
    have hnot : ¬ ((!r.force_ind.contains ind && (r.id = "HU" || r.id = "HI")) = true) := by
      intro hcc
      rw [hcond] at hcc
      exact absurd hcc (by simp)
    rw [if_neg hnot]

/-- Witness for C5: a morphological record with root وجه (which ends in a
    single ه) suppresses rule HU on a concrete token, leaving the state
    unchanged. -/
theorem hu_hi_suppression_amended_witness :
    ruleStep
        (fun ind => if ind = (2,126,10) then some (MorphRec.mk "" [] [] ["وجه"] []) else none)
        "وجه".toList 2 ruleHU 0
        (EngineState.mk [Token.mk "بِهُۥ" (2,126,10), Token.mk "مِن" (2,126,11)] none)
      = .ok (EngineState.mk [Token.mk "بِهُۥ" (2,126,10), Token.mk "مِن" (2,126,11)] none) :=
  hu_hi_suppression_amended.1
    (fun ind => if ind = (2,126,10) then some (MorphRec.mk "" [] [] ["وجه"] []) else none)
    "وجه".toList 2 ruleHU 0
    (EngineState.mk [Token.mk "بِهُۥ" (2,126,10), Token.mk "مِن" (2,126,11)] none)
    (Token.mk "بِهُۥ" (2,126,10)) (MorphRec.mk "" [] [] ["وجه"] [])
    (Or.inl rfl) rfl (by decide) rfl (by decide) rfl (by decide)

/-! ## Claim C8 -/

/-- Claim C8: fatal lookup.  If the morphological table has no record for
    some token's index, a full pass of `apply_rules` with either rule table
    fails with a lookup error carrying that token's index instead of
    skipping the token: both tables contain a rule with a POS filter (SHMS)
    and no index restriction or exception, so the morphological index is
    consulted for every token and an absent index always aborts the pass
    (at the first such token, all earlier tokens being processable). -/
theorem missing_morph_index_aborts_pass :
    ∀ (tokens : List Token) (qm : QMorf) (counts : Option (List CountEntry))
      (rasmFn : String → String) (k : Nat) (t : Token),
    tokens[k]? = some t → qm t.ind = none →
    (∀ j : Nat, j < k → ∀ u, tokens[j]? = some u → (qm u.ind).isSome) →
    apply_rules tokens REMOVE_SANDHI_RULES qm counts rasmFn = .error t.ind ∧
    apply_rules tokens RESTORE_SANDHI_RULES qm counts rasmFn = .error t.ind := by
  intro tokens qm counts rasmFn k t ht hq hbefore
  have hanyR : REMOVE_SANDHI_RULES.any
      (fun r => r.filter_pos.isSome && r.restrict_ind.isEmpty && r.except_ind.isEmpty) = true := by
    decide
  have hanyA : RESTORE_SANDHI_RULES.any
      (fun r => r.filter_pos.isSome && r.restrict_ind.isEmpty && r.except_ind.isEmpty) = true := by
    decide
  have hexR : ∃ r ∈ REMOVE_SANDHI_RULES,
      r.filter_pos.isSome = true ∧ r.restrict_ind = [] ∧ r.except_ind = [] := by
    obtain ⟨r, hr, hf⟩ := List.any_eq_true.mp hanyR
    exact ⟨r, hr, by simp_all [List.isEmpty_iff]⟩
  have hexA : ∃ r ∈ RESTORE_SANDHI_RULES,
      r.filter_pos.isSome = true ∧ r.restrict_ind = [] ∧ r.except_ind = [] := by
    obtain ⟨r, hr, hf⟩ := List.any_eq_true.mp hanyA
    exact ⟨r, hr, by simp_all [List.isEmpty_iff]⟩
  exact ⟨apply_rules_error_of_missing tokens REMOVE_SANDHI_RULES qm counts rasmFn k t ht hq hbefore hexR,
         apply_rules_error_of_missing tokens RESTORE_SANDHI_RULES qm counts rasmFn k t ht hq hbefore hexA⟩

/-- Witness for C8: a one-token corpus whose index is absent from the
    morphological table aborts both passes with that index. -/
theorem missing_morph_index_aborts_pass_witness :
    apply_rules [Token.mk "" (1,1,1)] REMOVE_SANDHI_RULES (fun _ => none) none id
      = .error (1,1,1) ∧
    apply_rules [Token.mk "" (1,1,1)] RESTORE_SANDHI_RULES (fun _ => none) none id
      = .error (1,1,1) :=
  missing_morph_index_aborts_pass [Token.mk "" (1,1,1)] (fun _ => none) none id 0
    (Token.mk "" (1,1,1)) rfl rfl (by intro j hj u hu; omega)

/-! ## Claim C3 -/

/-- Counterexample for C3 as stated: the documented restriction set of
    rule `min-y-4` (`RESTRICT_INDEXES_MIN_Y_4`) contains 16 distinct
    indexes, not 15 as the claim says. -/
theorem min_y_4_restrict_set_not_fifteen :
    RESTRICT_INDEXES_MIN_Y_4.Nodup ∧ RESTRICT_INDEXES_MIN_Y_4.length = 16 ∧
      ¬ RESTRICT_INDEXES_MIN_Y_4.length = 15 := by
  decide

set_option maxRecDepth 4096 in
/-- Claim C3 (amended: the `min-y-4` restriction set has 16 indexes, not
    15).  For every rule of either table whose `RESTRICT_INDEXES` set is
    non-empty, `apply_rules` never modifies a token whose (sura, verse,
    word) index lies outside that set: a restricted rule of these tables is
    intra-word only, so any token it changes is the current token, whose
    index must be a member of the restriction set for the rule to fire;
    in particular `min-y-4` (with its 16-index restriction set) fires only
    inside `RESTRICT_INDEXES_MIN_Y_4`. -/
theorem restricted_rules_fire_only_inside_set :
    (∀ r : Rule, (r ∈ REMOVE_SANDHI_RULES ∨ r ∈ RESTORE_SANDHI_RULES) →
      r.restrict_ind ≠ [] →
      ∀ (qm : QMorf) (w : List Char) (nt i : Nat) (st st' : EngineState)
        (j : Nat) (tj tj' : Token),
      ruleStep qm w nt r i st = .ok st' →
      st.tokens[j]? = some tj → st'.tokens[j]? = some tj' →
      tj' ≠ tj → j = i ∧ tj.ind ∈ r.restrict_ind)
    ∧ REMOVE_SANDHI_RULES[78]? = some ruleMinY4
    ∧ ruleMinY4.restrict_ind = RESTRICT_INDEXES_MIN_Y_4
    ∧ RESTRICT_INDEXES_MIN_Y_4.Nodup ∧ RESTRICT_INDEXES_MIN_Y_4.length = 16 := by
  refine ⟨?_, by decide, rfl, by decide, by decide⟩
  intro r hmem hrestrict qm w nt i st st' j tj tj' hstep htj htj' hne
  have hbnone : r.boundary = none := by
    have hall : (REMOVE_SANDHI_RULES ++ RESTORE_SANDHI_RULES).all
        (fun r => r.restrict_ind.isEmpty || r.boundary.isNone) = true := by decide
    have hr : r ∈ REMOVE_SANDHI_RULES ++ RESTORE_SANDHI_RULES := List.mem_append.mpr hmem
    have hthis := List.all_eq_true.mp hall r hr
    simp only [Bool.or_eq_true, List.isEmpty_iff, Option.isNone_iff_eq_none] at hthis
    rcases hthis with h | h
    · exact absurd h hrestrict
    · exact h
  rcases ruleStep_ok_cases qm w nt r i st st' hstep with h1 | ⟨t, hti, hg, h1⟩
  · subst h1
    rw [htj] at htj'
    injection htj' with htj'
    exact absurd htj'.symm hne
  · subst h1
    by_cases hji : j = i
    · subst hji
      rw [hti] at htj
      injection htj with htj
      subst htj
      refine ⟨rfl, ?_⟩
      simp only [guardSkip, Bool.or_eq_false_iff, Bool.and_eq_false_iff,
        Bool.not_eq_false'] at hg
      rcases hg.1 with h | h
      · exact absurd (List.isEmpty_iff.mp h) hrestrict
      · simpa using h
    · rw [ruleApply_frame_of_boundary_none r t.ind nt i st j hbnone hji, htj] at htj'
      injection htj' with htj'
      exact absurd htj'.symm hne

/-- Witness for C3: rule `min-y-4` applied at its restricted index
    (25,69,7) on the documented token فِیهِۦ modifies only that token, whose
    index is in the restriction set. -/
theorem restricted_rules_fire_only_inside_set_witness :
    (0 : Nat) = 0 ∧ (25,69,7) ∈ ruleMinY4.restrict_ind :=
  restricted_rules_fire_only_inside_set.1 ruleMinY4 (Or.inl (by decide)) (by decide)
    (fun _ => none) [] 1 0
    (EngineState.mk [Token.mk "فِیهِۦ" (25,69,7)] none)
    (EngineState.mk [Token.mk "فِیهِ" (25,69,7)] none)
    0 (Token.mk "فِیهِۦ" (25,69,7)) (Token.mk "فِیهِ" (25,69,7))
    (by decide) rfl rfl (by decide)

/-! ## Claims C6 and C7 -/

theorem mem_zip_of_getElem {α β : Type} :
    ∀ (l1 : List α) (l2 : List β) (j : Nat) (a : α) (b : β),
    l1[j]? = some a → l2[j]? = some b → (a, b) ∈ l1.zip l2 := by
  intro l1
  induction l1 with
  | nil => intro l2 j a b ha _; simp at ha
  | cons x l1 ih =>
    intro l2 j a b ha hb
    cases l2 with
    | nil => simp at hb
    | cons y l2 =>
      cases j with
      | zero =>
        simp only [List.getElem?_cons_zero, Option.some.injEq] at ha hb
        subst ha
        subst hb
        exact List.mem_cons_self _ _
      | succ j =>
        exact List.mem_cons_of_mem _
          (ih l2 j a b (by simpa using ha) (by simpa using hb))

/-- Claim C6: on verification failure the eval run emits a per-token line
    for every zipped (original, restored) token pair — a ` diff ` line for
    each differing pair — and terminates with exit status 1 (non-zero);
    when the joined original and restored texts are equal it reports
    success with exit status 0 and no failure lines. -/
theorem roundtrip_failure_reporting :
    ∀ (qtokens qtokens_restored : List Token),
    (joinTexts qtokens = joinTexts qtokens_restored →
      roundtripReport qtokens qtokens_restored
        = ([">> Original and restored qtexts match!"], 0)) ∧
    (joinTexts qtokens ≠ joinTexts qtokens_restored →
      (roundtripReport qtokens qtokens_restored).2 = 1 ∧
      (roundtripReport qtokens qtokens_restored).2 ≠ 0 ∧
      ∀ (j : Nat) (a b : Token), qtokens[j]? = some a → qtokens_restored[j]? = some b →
        a.text ≠ b.text →
        (" diff " ++ a.text ++ " " ++ b.text ++ " (" ++ indColons a.ind ++ ")")
          ∈ (roundtripReport qtokens qtokens_restored).1) := by
  intro qtokens qtokens_restored
  constructor
  · intro h
    unfold roundtripReport
    rw [if_pos h]
  · intro h
    unfold roundtripReport
    rw [if_neg h]
    refine ⟨rfl, by simp, ?_⟩
    intro j a b ha hb hne
    apply List.mem_cons_of_mem
    unfold diffLines
    apply List.mem_map.mpr
    refine ⟨(a, b), mem_zip_of_getElem qtokens qtokens_restored j a b ha hb, ?_⟩
    simp [hne]

/-- Witness for C6: a matching pair reports success with status 0; a
    mismatching pair gets status 1 and its diff line. -/
theorem roundtrip_failure_reporting_witness :
    roundtripReport [Token.mk "ا" (1,1,1)] [Token.mk "ا" (1,1,1)]
      = ([">> Original and restored qtexts match!"], 0) ∧
    (roundtripReport [Token.mk "ا" (1,1,1)] [Token.mk "ب" (1,1,1)]).2 = 1 ∧
    (" diff " ++ "ا" ++ " " ++ "ب" ++ " (" ++ indColons (1,1,1) ++ ")")
      ∈ (roundtripReport [Token.mk "ا" (1,1,1)] [Token.mk "ب" (1,1,1)]).1 :=
  ⟨(roundtrip_failure_reporting [Token.mk "ا" (1,1,1)] [Token.mk "ا" (1,1,1)]).1 (by decide),
   ((roundtrip_failure_reporting [Token.mk "ا" (1,1,1)] [Token.mk "ب" (1,1,1)]).2 (by decide)).1,
   (((roundtrip_failure_reporting [Token.mk "ا" (1,1,1)] [Token.mk "ب" (1,1,1)]).2 (by decide)).2.2
     0 (Token.mk "ا" (1,1,1)) (Token.mk "ب" (1,1,1)) rfl rfl (by decide))⟩

/-- Claim C7 (code bug): the residual sweep does NOT assign a distinct
    diagnostic code to each residual-trace class — the miniature-mim
    (U+06E2) class and the miniature-sin (U+06DC) class both emit the code
    `WARNING-C` (the second branch was evidently meant to be `WARNING-D`,
    continuing the 1..9, A, B, C sequence), while they are distinct
    classes with distinct messages; the per-hit token and index reporting
    and the final total count do hold.  Evaluated at the failing input: a
    token containing ۜ. -/
theorem residual_sweep_warning_code_collision :
    (residualWarning "ۢ" (1,1,1)).map Prod.fst = some "WARNING-C" ∧
    (residualWarning "ۜ" (1,1,1)).map Prod.fst = some "WARNING-C" ∧
    residualWarning "ۢ" (1,1,1) ≠ residualWarning "ۜ" (1,1,1) ∧
    (residualSweep [Token.mk "ۢ" (1,1,1), Token.mk "ۜ" (1,1,2)]).2 = 2 := by
  exact ⟨by decide, by decide, by decide, by decide⟩

end Tajweed
